import Mathlib

/-!
Verification development for the X/Y/Z plot sweep engine of
`scripts/xyz_grid.py` (stable-diffusion-webui-reForge).

The Python code is shallowly embedded: pure fragments become Lean
functions, the mutable `Processed` accumulator of `draw_xyz_grid`
becomes explicit state passing, Python object aliasing (the per-cell
shallow copy of the render request) becomes an explicit heap of list
and dict objects, and fallible code returns `Except`/`Option`.
Collaborator calls that live outside the repository (PIL image
construction, `images.image_grid`, `images.draw_grid_annotations`,
the renderer `process_images`) are modelled as free constructors or
opaque function parameters, so that everything the embedded code does
with their results is recorded exactly.
-/

/-! ## Python string primitives (stdlib collaborators) -/

/-- Whitespace characters recognised by the Python `str.strip` and by
the `\s` class of the `re` module (ASCII fragment, which is all the
grid code ever feeds it). -/
def isPySpace (c : Char) : Bool :=
  c = ' ' || c = '\t' || c = '\n' || c = '\r' || c = '\x0b' || c = '\x0c'

/-- `str.strip` on a character list: drop whitespace from both ends. -/
def pyStripChars (cs : List Char) : List Char :=
  ((cs.dropWhile isPySpace).reverse.dropWhile isPySpace).reverse

/-- `str.strip` of Python. -/
def pyStrip (s : String) : String :=
  String.mk (pyStripChars s.data)

/-- Decimal digit run to a natural number. -/
def digitsToNat (cs : List Char) : Nat :=
  cs.foldl (fun n c => n * 10 + (c.toNat - 48)) 0

/-- All-digits check plus conversion; `none` when the run is empty or
contains a non-digit. -/
def parseDigitsAll (cs : List Char) : Option Nat :=
  if cs ≠ [] ∧ cs.all (·.isDigit) then some (digitsToNat cs) else none

/-- The Python builtin `int(str)`: optional surrounding whitespace, an
optional single sign, then decimal digits; anything else raises
`ValueError`, modelled as `none`.  (Underscore digit grouping is not
used by any axis syntax and is omitted.) -/
def pyInt (s : String) : Option Int :=
  match pyStripChars s.data with
  | '+' :: rest => (parseDigitsAll rest).map Int.ofNat
  | '-' :: rest => (parseDigitsAll rest).map (fun n => -(n : Int))
  | cs => (parseDigitsAll cs).map Int.ofNat

/-- Drop leading regex whitespace. -/
def skipWs (cs : List Char) : List Char :=
  cs.dropWhile isPySpace

/-! ## The range regexes of xyz_grid.py

`re_range = \s*([+-]?\s*\d+)\s*-\s*([+-]?\s*\d+)(?:\s*\(([+-]\d+)\s*\))?\s*`
used with `fullmatch`.  The match function returns the three captured
groups as raw character lists (group 3 optional); the `int(...)`
conversions the Python code applies to the groups are modelled
separately, since a capture such as "+ 5" matches the regex but makes
`int` raise. -/

/-- Match `[+-]?\s*\d+` greedily, returning the captured text and the
rest of the input.  No backtracking is needed: the characters consumed
by each piece are disjoint from what may follow. -/
def grpSignedWsDigits (cs : List Char) : Option (List Char × List Char) :=
  let (pre, cs1) :=
    match cs with
    | c :: r => if c = '+' || c = '-' then ([c], r) else (([] : List Char), cs)
    | [] => (([] : List Char), cs)
  let ws := cs1.takeWhile isPySpace
  let cs2 := cs1.dropWhile isPySpace
  let ds := cs2.takeWhile (·.isDigit)
  let cs3 := cs2.dropWhile (·.isDigit)
  if ds = [] then none else some (pre ++ ws ++ ds, cs3)

/-- Match the optional step group `\s*\(([+-]\d+)\s*\)` of `re_range`.
Note the sign inside the parentheses is mandatory and no whitespace is
allowed between the sign and the digits or before the sign. -/
def grpParenStep (cs : List Char) : Option (List Char × List Char) :=
  match skipWs cs with
  | '(' :: r =>
    match r with
    | c :: r2 =>
      if c = '+' || c = '-' then
        let ds := r2.takeWhile (·.isDigit)
        let r3 := r2.dropWhile (·.isDigit)
        if ds = [] then none
        else
          match skipWs r3 with
          | ')' :: r5 => some (c :: ds, r5)
          | _ => none
      else none
    | [] => none
  | _ => none

/-- Match the optional count group `\s*\[(\d+)\s*]` of `re_range_count`. -/
def grpBracketCount (cs : List Char) : Option (List Char × List Char) :=
  match skipWs cs with
  | '[' :: r =>
    let ds := r.takeWhile (·.isDigit)
    let r2 := r.dropWhile (·.isDigit)
    if ds = [] then none
    else
      match skipWs r2 with
      | ']' :: r3 => some (ds, r3)
      | _ => none
  | _ => none

/-- `re_range.fullmatch`: on success the captures of groups 1, 2 and
(optionally) 3, as raw text. -/
def reRangeMatch (s : String) : Option (List Char × List Char × Option (List Char)) :=
  match grpSignedWsDigits (skipWs s.data) with
  | none => none
  | some (g1, cs1) =>
    match skipWs cs1 with
    | '-' :: cs2 =>
      match grpSignedWsDigits (skipWs cs2) with
      | none => none
      | some (g2, cs3) =>
        let (g3, cs4) :=
          match grpParenStep cs3 with
          | some (g, rest) => (some g, rest)
          | none => (none, cs3)
        if skipWs cs4 = [] then some (g1, g2, g3) else none
    | _ => none

/-- `re_range_count.fullmatch`: captures of groups 1, 2 and optional 3. -/
def reRangeCountMatch (s : String) : Option (List Char × List Char × Option (List Char)) :=
  match grpSignedWsDigits (skipWs s.data) with
  | none => none
  | some (g1, cs1) =>
    match skipWs cs1 with
    | '-' :: cs2 =>
      match grpSignedWsDigits (skipWs cs2) with
      | none => none
      | some (g2, cs3) =>
        let (g3, cs4) :=
          match grpBracketCount cs3 with
          | some (g, rest) => (some g, rest)
          | none => (none, cs3)
        if skipWs cs4 = [] then some (g1, g2, g3) else none
    | _ => none

/-! ## The Python builtin `range`, materialised as a list

`list(range(a, b, s))`, fuel-compiled so that it reduces in the kernel.
The fuel bound `(b - a).toNat` (resp. `(a - b).toNat`) dominates the
number of produced elements because every step moves by at least 1. -/

/-- Ascending leg: elements `a, a+s, ...` while `< b`; `s ≥ 1`. -/
def pyRangeUp (s b : Int) : Nat → Int → List Int
  | 0, _ => []
  | fuel + 1, a => if a < b then a :: pyRangeUp s b fuel (a + s) else []

/-- Descending leg: elements `a, a+s, ...` while `> b`; `s ≤ -1`. -/
def pyRangeDown (s b : Int) : Nat → Int → List Int
  | 0, _ => []
  | fuel + 1, a => if b < a then a :: pyRangeDown s b fuel (a + s) else []

/-- `list(range(a, b, s))` for `s ≠ 0` (Python raises `ValueError` on
`s = 0`; the caller models that case separately). -/
def pyRange (a b s : Int) : List Int :=
  if 0 < s then pyRangeUp s b (b - a).toNat a
  else if s < 0 then pyRangeDown s b (a - b).toNat a
  else []

/-! ## Float-side number parsing and numpy collaborators

The float regexes use the number pattern `\d+(?:.\d*)?` with an
unescaped dot; it is modelled here with a literal dot (the only use the
repository makes of it).  numpy arithmetic is modelled over exact
rationals: `np.arange` and `np.linspace` compute in binary floating
point, abstracted here to `ℚ`. -/

/-- Match `[+-]?\s*\d+(?:.\d*)?` greedily, returning the captured text. -/
def grpSignedWsNum (cs : List Char) : Option (List Char × List Char) :=
  match grpSignedWsDigits cs with
  | none => none
  | some (g, rest) =>
    match rest with
    | '.' :: r2 =>
      let ds := r2.takeWhile (·.isDigit)
      let r3 := r2.dropWhile (·.isDigit)
      some (g ++ '.' :: ds, r3)
    | _ => some (g, rest)

/-- Parenthesised float step group `\s*\(([+-]\d+(?:.\d*)?)\s*\)`. -/
def grpParenStepF (cs : List Char) : Option (List Char × List Char) :=
  match skipWs cs with
  | '(' :: r =>
    match r with
    | c :: r2 =>
      if c = '+' || c = '-' then
        let ds := r2.takeWhile (·.isDigit)
        let r3 := r2.dropWhile (·.isDigit)
        if ds = [] then none
        else
          let (frac, r4) :=
            match r3 with
            | '.' :: r3a => ('.' :: r3a.takeWhile (·.isDigit), r3a.dropWhile (·.isDigit))
            | _ => (([] : List Char), r3)
          match skipWs r4 with
          | ')' :: r5 => some (c :: ds ++ frac, r5)
          | _ => none
      else none
    | [] => none
  | _ => none

/-- Bracketed float count group `\s*\[(\d+(?:.\d*)?)\s*]`. -/
def grpBracketCountF (cs : List Char) : Option (List Char × List Char) :=
  match skipWs cs with
  | '[' :: r =>
    let ds := r.takeWhile (·.isDigit)
    let r2 := r.dropWhile (·.isDigit)
    if ds = [] then none
    else
      let (frac, r3) :=
        match r2 with
        | '.' :: r2a => ('.' :: r2a.takeWhile (·.isDigit), r2a.dropWhile (·.isDigit))
        | _ => (([] : List Char), r2)
      match skipWs r3 with
      | ']' :: r4 => some (ds ++ frac, r4)
      | _ => none
  | _ => none

/-- `re_range_float.fullmatch` captures. -/
def reRangeFloatMatch (s : String) : Option (List Char × List Char × Option (List Char)) :=
  match grpSignedWsNum (skipWs s.data) with
  | none => none
  | some (g1, cs1) =>
    match skipWs cs1 with
    | '-' :: cs2 =>
      match grpSignedWsNum (skipWs cs2) with
      | none => none
      | some (g2, cs3) =>
        let (g3, cs4) :=
          match grpParenStepF cs3 with
          | some (g, rest) => (some g, rest)
          | none => (none, cs3)
        if skipWs cs4 = [] then some (g1, g2, g3) else none
    | _ => none

/-- `re_range_count_float.fullmatch` captures. -/
def reRangeCountFloatMatch (s : String) : Option (List Char × List Char × Option (List Char)) :=
  match grpSignedWsNum (skipWs s.data) with
  | none => none
  | some (g1, cs1) =>
    match skipWs cs1 with
    | '-' :: cs2 =>
      match grpSignedWsNum (skipWs cs2) with
      | none => none
      | some (g2, cs3) =>
        let (g3, cs4) :=
          match grpBracketCountF cs3 with
          | some (g, rest) => (some g, rest)
          | none => (none, cs3)
        if skipWs cs4 = [] then some (g1, g2, g3) else none
    | _ => none

/-- The Python builtin `float(str)` restricted to the decimal forms
`[+-]?digits[.digits*]` that axis tokens and regex captures take
(scientific and special forms never reach the grid code). -/
def pyFloat (s : String) : Option ℚ :=
  let core : List Char → Option ℚ := fun cs =>
    let intPart := cs.takeWhile (·.isDigit)
    let rest := cs.dropWhile (·.isDigit)
    match rest with
    | [] => if intPart = [] then none else some (digitsToNat intPart : ℚ)
    | '.' :: fr =>
      if fr.all (·.isDigit) ∧ (intPart ≠ [] ∨ fr ≠ []) then
        some ((digitsToNat intPart : ℚ) +
          (digitsToNat fr : ℚ) / ((10 : ℚ) ^ fr.length))
      else none
    | _ => none
  match pyStripChars s.data with
  | '+' :: rest => core rest
  | '-' :: rest => (core rest).map Neg.neg
  | cs => core cs

/-- `int(float)` truncation toward zero used when the integer branch
converts `np.linspace` samples. -/
def ratTruncToInt (q : ℚ) : Int :=
  if q < 0 then Int.ceil q else Int.floor q

/-- `np.linspace(start, stop, num).tolist()` over exact rationals. -/
def linspaceQ (a b : ℚ) (num : Nat) : List ℚ :=
  if num = 0 then []
  else if num = 1 then [a]
  else (List.range num).map (fun i => a + (b - a) * i / ((num : ℚ) - 1))

/-- `np.arange(start, stop, step).tolist()` over exact rationals:
`max 0 ⌈(stop - start) / step⌉` samples `start + i * step`
(`step ≠ 0`; numpy rejects a zero step, handled at the call site). -/
def arangeQ (start stop step : ℚ) : List ℚ :=
  if step = 0 then []
  else (List.range (Int.ceil ((stop - start) / step)).toNat).map
    (fun i => start + step * i)

/-! ## csv_string_to_list_strip

`csv.reader` (Python stdlib, default dialect, `skipinitialspace=True`)
flattened with `chain.from_iterable` and mapped through `str.strip`.
The reader is modelled as one character-machine pass: fields split on
commas outside quotes, records split on newlines outside quotes, a
field is quoted when its first non-skipped character is a double
quote, and a doubled quote inside a quoted field denotes one quote
character.  An empty input yields no rows at all. -/

structure CsvSt where
  rows : List (List String)
  cur : List String
  field : List Char
  inQuotes : Bool
  afterClose : Bool
  atStart : Bool
deriving Repr, DecidableEq

def csvInit : CsvSt :=
  ⟨[], [], [], false, false, true⟩

def csvStep (st : CsvSt) (c : Char) : CsvSt :=
  if st.inQuotes then
    if c = '"' then { st with inQuotes := false, afterClose := true }
    else { st with field := st.field ++ [c] }
  else if st.afterClose ∧ c = '"' then
    { st with field := st.field ++ [c], inQuotes := true, afterClose := false }
  else if c = ',' then
    { st with cur := st.cur ++ [String.mk st.field], field := [],
              atStart := true, afterClose := false }
  else if c = '\n' then
    { st with rows := st.rows ++ [st.cur ++ [String.mk st.field]],
              cur := [], field := [], atStart := true, afterClose := false }
  else if st.atStart ∧ c = ' ' then
    st
  else if st.atStart ∧ c = '"' then
    { st with inQuotes := true, atStart := false }
  else
    { st with field := st.field ++ [c], atStart := false, afterClose := false }

/-- Rows produced by `csv.reader` on the full input string. -/
def csvRows (s : String) : List (List String) :=
  match s.data with
  | [] => []
  | cs =>
    let st := cs.foldl csvStep csvInit
    st.rows ++ [st.cur ++ [String.mk st.field]]

/-- `csv_string_to_list_strip` of xyz_grid.py. -/
def csv_string_to_list_strip (s : String) : List String :=
  (csvRows s).flatten.map pyStrip

/-! ## process_axis (Script.run, lines 1125-1200)

Value lists are heterogeneous in Python; the embedding tags them. -/

inductive AxisVal where
  | i (n : Int)
  | f (q : ℚ)
  | s (t : String)
  | perm (l : List String)
deriving Repr, DecidableEq

/-- Tag for `AxisOption.type` (a Python constructor function there):
`int`, `float`, `str` or `str_permutations`. -/
inductive AxisType where
  | int
  | float
  | str
  | strPerm
deriving Repr, DecidableEq

/-- The slice of `AxisOption` that `process_axis` consults.  The choice
provider is modelled by whether one exists (its values are consumed by
the UI, not by `process_axis` itself), `prepare` as an optional
function, `confirm` as an optional validator that may abort. -/
structure AxisOpt where
  label : String
  type : AxisType
  hasChoices : Bool := false
  prepare : Option (String → List String) := none
  confirm : Option (List AxisVal → Except String Unit) := none

/-- One iteration of the integer branch loop of `process_axis`:
expansion of a single token.  Range entries are Python ints
(`Sum.inl`), literal entries stay strings (`Sum.inr`) until the final
`opt.type` coercion pass.  `Except.error` is a raised exception, which
aborts the whole sweep. -/
def intTokenExpand (tok : String) : Except String (List (Int ⊕ String)) :=
  if pyStripChars tok.data = [] then .ok []
  else
    match reRangeMatch tok with
    | some (g1, g2, g3) =>
      match pyInt (String.mk g1), pyInt (String.mk g2) with
      | some a, some b =>
        match g3 with
        | none => .ok ((pyRange a (b + 1) 1).map Sum.inl)
        | some g =>
          match pyInt (String.mk g) with
          | some s =>
            if s = 0 then .error "ValueError: range() arg 3 must not be zero"
            else .ok ((pyRange a (b + 1) s).map Sum.inl)
          | none => .error "ValueError: invalid literal for int()"
      | _, _ => .error "ValueError: invalid literal for int()"
    | none =>
      match reRangeCountMatch tok with
      | some (g1, g2, g3) =>
        match pyInt (String.mk g1), pyInt (String.mk g2) with
        | some a, some b =>
          match g3 with
          | none => .ok ((linspaceQ a b 1).map (fun q => Sum.inl (ratTruncToInt q)))
          | some g =>
            match pyInt (String.mk g) with
            | some num =>
              .ok ((linspaceQ a b num.toNat).map (fun q => Sum.inl (ratTruncToInt q)))
            | none => .error "ValueError: invalid literal for int()"
        | _, _ => .error "ValueError: invalid literal for int()"
      | none => .ok [Sum.inr tok]

/-- One iteration of the float branch loop of `process_axis`. -/
def floatTokenExpand (tok : String) : Except String (List (ℚ ⊕ String)) :=
  if pyStripChars tok.data = [] then .ok []
  else
    match reRangeFloatMatch tok with
    | some (g1, g2, g3) =>
      match pyFloat (String.mk g1), pyFloat (String.mk g2) with
      | some a, some b =>
        match g3 with
        | none => .ok ((arangeQ a (b + 1) 1).map Sum.inl)
        | some g =>
          match pyFloat (String.mk g) with
          | some s =>
            if s = 0 then .error "ValueError: arange step must be nonzero"
            else .ok ((arangeQ a (b + s) s).map Sum.inl)
          | none => .error "ValueError: could not convert string to float"
      | _, _ => .error "ValueError: could not convert string to float"
    | none =>
      match reRangeCountFloatMatch tok with
      | some (g1, g2, g3) =>
        match pyFloat (String.mk g1), pyFloat (String.mk g2) with
        | some a, some b =>
          match g3 with
          | none => .ok ((linspaceQ a b 1).map Sum.inl)
          | some g =>
            match pyInt (String.mk g) with
            | some num => .ok ((linspaceQ a b num.toNat).map Sum.inl)
            | none => .error "ValueError: invalid literal for int()"
        | _, _ => .error "ValueError: could not convert string to float"
      | none => .ok [Sum.inr tok]

/-- All permutations, fuel-compiled (fuel = list length suffices since
each recursive call erases one element): order as produced by
`itertools.permutations` (lexicographic in input positions). -/
def pyPermsF : Nat → List String → List (List String)
  | 0, _ => [[]]
  | _, [] => [[]]
  | fuel + 1, l =>
    (List.range l.length).flatMap fun i =>
      match l.get? i with
      | none => []
      | some x => (pyPermsF fuel (l.eraseIdx i)).map (fun p => x :: p)

/-- `list(itertools.permutations(l))`. -/
def pyPermutations (l : List String) : List (List String) :=
  pyPermsF l.length l

/-- `process_axis(opt, vals, vals_dropdown)` of `Script.run`.
`csvMode` is the `csv_mode` flag captured from the surrounding scope. -/
def process_axis (csvMode : Bool) (opt : AxisOpt) (vals : String)
    (valsDropdown : List String) : Except String (List AxisVal) :=
  if opt.label = "Nothing" then .ok [.i 0]
  else
    let valslist : List String :=
      if opt.hasChoices ∧ ¬csvMode then valsDropdown
      else
        match opt.prepare with
        | some f => f vals
        | none => csv_string_to_list_strip vals
    let expanded : Except String (List AxisVal) :=
      match opt.type with
      | .int => do
        let ext ← valslist.foldlM (fun acc t => do
          pure (acc ++ (← intTokenExpand t))) []
        ext.mapM (fun v =>
          match v with
          | Sum.inl n => .ok (AxisVal.i n)
          | Sum.inr t =>
            match pyInt t with
            | some n => .ok (AxisVal.i n)
            | none => .error "ValueError: invalid literal for int()")
      | .float => do
        let ext ← valslist.foldlM (fun acc t => do
          pure (acc ++ (← floatTokenExpand t))) []
        ext.mapM (fun v =>
          match v with
          | Sum.inl q => .ok (AxisVal.f q)
          | Sum.inr t =>
            match pyFloat t with
            | some q => .ok (AxisVal.f q)
            | none => .error "ValueError: could not convert string to float")
      | .str => .ok (valslist.map AxisVal.s)
      | .strPerm => .ok ((pyPermutations valslist).map AxisVal.perm)
    match expanded with
    | .error e => .error e
    | .ok vs =>
      match opt.confirm with
      | none => .ok vs
      | some conf =>
        match conf vs with
        | .ok _ => .ok vs
        | .error e => .error e

/-! ## Iteration planner (Script.run, lines 1277-1299)

The costs compared are the `AxisOption.cost` floats; Python compares
them with `>`.  The translation is polymorphic over a linear order
(the registry only ever stores the literals 0.0, 0.5, 0.7, 0.9, 1.0,
on which float comparison agrees with any exact order). -/

/-- `first_axes_processed`/`second_axes_processed` selection. -/
def planOrder {α : Type} [LinearOrder α] (xCost yCost zCost : α) : String × String :=
  if xCost > yCost ∧ xCost > zCost then
    ("x", if yCost > zCost then "y" else "z")
  else if yCost > xCost ∧ yCost > zCost then
    ("y", if xCost > zCost then "x" else "z")
  else if zCost > xCost ∧ zCost > yCost then
    ("z", if xCost > yCost then "x" else "y")
  else
    ("z", "y")

/-! ## The per-cell clone of the render request (cell, lines 1303-1320)

Python object semantics made explicit: a `Req` record holds scalar
attributes by value and its list/dict attributes by reference into a
heap.  `copy(p)` copies the record, sharing the references;
`pc.styles = pc.styles[:]` allocates a fresh list object for the clone;
nothing reallocates `override_settings`. -/

structure Heap where
  lists : List (List String)
  dicts : List (List (String × String))
deriving Repr, DecidableEq

/-- The fields of the processing object that the modelled apply
functions touch.  `stylesRef`/`overrideRef` are heap references. -/
structure Req where
  prompt : String
  negativePrompt : String
  seed : Int
  steps : Int
  samplerName : String
  width : Nat
  height : Nat
  stylesRef : Nat
  overrideRef : Nat
deriving Repr, DecidableEq

/-- The styles list the request currently references. -/
def stylesView (h : Heap) (p : Req) : List String :=
  h.lists.getD p.stylesRef []

/-- The override-settings dict the request currently references. -/
def overrideView (h : Heap) (p : Req) : List (String × String) :=
  h.dicts.getD p.overrideRef []

/-- `pc = copy(p); pc.styles = pc.styles[:]` — the shallow copy plus
the one deep-copied collection.  The fresh list object is appended to
the heap; every other reference (notably `override_settings`) is
shared with the template. -/
def cloneForCell (h : Heap) (p : Req) : Heap × Req :=
  ({ h with lists := h.lists ++ [stylesView h p] },
   { p with stylesRef := h.lists.length })

/-- Association-list update with Python dict semantics
(`d[k] = v` replaces in place or appends). -/
def dictSet (d : List (String × String)) (k v : String) : List (String × String) :=
  if d.any (fun e => e.1 = k) then
    d.map (fun e => if e.1 = k then (k, v) else e)
  else d ++ [(k, v)]

/-- `needle in hay` on Python strings (character lists): the substring
test used by `apply_prompt`. -/
def hasSub (hay needle : List Char) : Bool :=
  hay.tails.any (fun t => needle.isPrefixOf t)

/-- `str.replace`: replace every occurrence, scanning left to right;
fuel-compiled on the haystack length. -/
def replaceSubF : Nat → List Char → List Char → List Char → List Char
  | 0, hay, _, _ => hay
  | fuel + 1, hay, nd, rep =>
    match hay with
    | [] => []
    | c :: rest =>
      if nd ≠ [] ∧ nd.isPrefixOf (c :: rest) then
        rep ++ replaceSubF fuel ((c :: rest).drop nd.length) nd rep
      else
        c :: replaceSubF fuel rest nd rep

def pyReplace (hay nd rep : String) : String :=
  String.mk (replaceSubF hay.data.length hay.data nd.data rep.data)

/-- The apply functions of the axis catalog that mutate distinct kinds
of state: plain `setattr` fields (`apply_field`), prompt search/replace
(`apply_prompt`), the styles list (`apply_styles`), and the shared
override-settings dict (`apply_override`, also `apply_checkpoint` and
`apply_vae`). -/
inductive ApplyOp where
  | setSeed (v : Int)
  | setSteps (v : Int)
  | setSampler (v : String)
  | promptSR (x : String) (anchor : String)
  | styles (x : String)
  | overrideSet (field : String) (v : String)
deriving Repr, DecidableEq

def ApplyOp.usesOverrideDict : ApplyOp → Bool
  | .overrideSet _ _ => true
  | _ => false

/-- `x.split(",")` of Python (no quote awareness, no stripping). -/
def pySplitComma (x : String) : List String :=
  (x.data.splitOn ',').map String.mk

/-- Run one apply function on (heap, request).  `apply_prompt` raises
when the anchor occurs in neither prompt; everything else succeeds. -/
def applyOp : ApplyOp → Heap → Req → Except String (Heap × Req)
  | .setSeed v, h, p => .ok (h, { p with seed := v })
  | .setSteps v, h, p => .ok (h, { p with steps := v })
  | .setSampler v, h, p => .ok (h, { p with samplerName := v })
  | .promptSR x anchor, h, p =>
    if ¬ hasSub p.prompt.data anchor.data ∧ ¬ hasSub p.negativePrompt.data anchor.data then
      .error "RuntimeError: Prompt S/R did not find token in prompt or negative prompt."
    else
      .ok (h, { p with prompt := pyReplace p.prompt anchor x,
                       negativePrompt := pyReplace p.negativePrompt anchor x })
  | .styles x, h, p =>
    .ok ({ h with lists := h.lists.set p.stylesRef (stylesView h p ++ pySplitComma x) }, p)
  | .overrideSet field v, h, p =>
    .ok ({ h with dicts := h.dicts.set p.overrideRef (dictSet (overrideView h p) field v) }, p)

/-! ## Seed variation (cell, lines 1313-1320) -/

/-- The sequential seed updates of `cell`:
`xdim`/`ydim` then three conditional `pc.seed +=` statements. -/
def cellSeed (seed0 : Int) (varyX varyY varyZ : Bool) (nx ny : Nat)
    (ix iy iz : Nat) : Int :=
  let xdim : Int := if varyX then nx else 1
  let ydim : Int := if varyY then ny else 1
  let s1 := if varyX then seed0 + ix else seed0
  let s2 := if varyY then s1 + iy * xdim else s1
  if varyZ then s2 + iz * xdim * ydim else s2

/-! ## Images and renderer results

PIL images and the compositor calls (`Image.new`, `images.image_grid`,
`images.draw_grid_annotations`, the label drawing) are collaborators;
they are modelled as a free term algebra recording exactly the
arguments the grid code passes.  `mode`/`size` are structural for the
constructors whose mode/size the code reads (cell images and
placeholders); for composed grids the code only pipes these values
into further collaborator calls, where the model returns fixed
defaults ("RGB", 0). -/

inductive Img where
  | pic (mode : String) (w h : Nat) (tag : Nat)
  | blank (mode : String) (w h : Nat)
  | labeled (i : Img) (text : String)
  | gridOf (cells : List (Option Img)) (rows : Nat)
  | annotated (g : Img) (w h : Nat) (hor ver : List String) (margin : Nat)

def Img.mode : Img → String
  | .pic m _ _ _ => m
  | .blank m _ _ => m
  | .labeled i _ => i.mode
  | .gridOf _ _ => "RGB"
  | .annotated g _ _ _ _ _ => g.mode

def Img.sizeW : Img → Nat
  | .pic _ w _ _ => w
  | .blank _ w _ => w
  | .labeled i _ => i.sizeW
  | .gridOf _ _ => 0
  | .annotated _ _ _ _ _ _ => 0

def Img.sizeH : Img → Nat
  | .pic _ _ h _ => h
  | .blank _ _ h => h
  | .labeled i _ => i.sizeH
  | .gridOf _ _ => 0
  | .annotated _ _ _ _ _ _ => 0

instance : Inhabited AxisVal := ⟨.i 0⟩

/-- The `Processed` bundle a renderer call returns (the fields the
grid code reads).  Modelled from the spec for the parts of
`modules/processing.py` that are not under src: a failed or skipped
cell carries an empty image list, the seed and the dimensions of the
request (spec section 3, Cell Result; section 7, cell render failure). -/
structure Processed where
  images : List Img
  prompt : String
  seed : Int
  infotexts : List String
  allPrompts : List String
  allSeeds : List Int
  width : Nat
  height : Nat

/-- `Processed(p, [], p.seed, "")` — the empty result `cell` builds on
interruption or renderer failure. -/
def emptyProcessed (pWidth pHeight : Nat) (pSeed : Int) : Processed :=
  ⟨[], "", pSeed, [], [], [], pWidth, pHeight⟩

/-- The four parallel metadata sequences of the `processed_result`
container of `draw_xyz_grid` plus the template dimensions it copied
from the first cell result. -/
structure GridState where
  images : List (Option Img)
  allPrompts : List (Option String)
  allSeeds : List (Option Int)
  infotexts : List (Option String)
  width : Nat
  height : Nat

/-- `index(ix, iy, iz) = ix + iy * len(xs) + iz * len(xs) * len(ys)`. -/
def flatIdx (nx ny ix iy iz : Nat) : Nat :=
  ix + iy * nx + iz * nx * ny

/-- Creation of the template container from the first processed cell:
`copy(processed)` with the four lists replaced by `[None] * list_size`. -/
def initGrid (pr : Processed) (listSize : Nat) : GridState :=
  ⟨List.replicate listSize none, List.replicate listSize none,
   List.replicate listSize none, List.replicate listSize none,
   pr.width, pr.height⟩

/-- Everything `draw_xyz_grid` receives from `Script.run` (the axis
value lists, the rendering closure, the formatted labels, flags). -/
structure GridCtx where
  xs : List AxisVal
  ys : List AxisVal
  zs : List AxisVal
  cellFn : AxisVal → AxisVal → AxisVal → Nat → Nat → Nat → Processed
  xLabels : List String
  yLabels : List String
  zLabels : List String
  drawLegend : Bool
  drawIndividualLabels : Bool
  margin : Nat
  pWidth : Nat
  pHeight : Nat
  pSeed : Int

/-- `cell(x, y, z, ix, iy, iz)` at given indices, values looked up in
the axis lists exactly as the `enumerate` loops pair them. -/
def GridCtx.cellAt (ctx : GridCtx) (c : Nat × Nat × Nat) : Processed :=
  ctx.cellFn (ctx.xs.getD c.1 default) (ctx.ys.getD c.2.1 default)
    (ctx.zs.getD c.2.2 default) c.1 c.2.1 c.2.2

/-- The three-line label burned onto a cell copy when
`draw_individual_labels` is set. -/
def GridCtx.cellLabel (ctx : GridCtx) (c : Nat × Nat × Nat) : String :=
  "X: " ++ ctx.xLabels.getD c.1 "" ++ "\nY: " ++ ctx.yLabels.getD c.2.1 ""
    ++ "\nZ: " ++ ctx.zLabels.getD c.2.2 ""

/-- The body of `process_cell` once the container exists: store the
first image (a labeled copy if requested) with its metadata at the
flat index, or store a blank placeholder whose mode/size come from the
image in slot 0 when present and from the template dimensions
otherwise. -/
def writeSlot (ctx : GridCtx) (s : GridState) (c : Nat × Nat × Nat) : GridState :=
  match (ctx.cellAt c).images with
  | img0 :: _ =>
    { s with
      images := (s.images.set (flatIdx ctx.xs.length ctx.ys.length c.1 c.2.1 c.2.2)
        (some (if ctx.drawIndividualLabels then Img.labeled img0 (ctx.cellLabel c) else img0))),
      allPrompts := (s.allPrompts.set (flatIdx ctx.xs.length ctx.ys.length c.1 c.2.1 c.2.2)
        (some (ctx.cellAt c).prompt)),
      allSeeds := (s.allSeeds.set (flatIdx ctx.xs.length ctx.ys.length c.1 c.2.1 c.2.2)
        (some (ctx.cellAt c).seed)),
      infotexts := (s.infotexts.set (flatIdx ctx.xs.length ctx.ys.length c.1 c.2.1 c.2.2)
        (some ((ctx.cellAt c).infotexts.getD 0 ""))) }
  | [] =>
    match s.images.getD 0 none with
    | some i0 =>
      { s with images := (s.images.set (flatIdx ctx.xs.length ctx.ys.length c.1 c.2.1 c.2.2)
          (some (Img.blank i0.mode i0.sizeW i0.sizeH))) }
    | none =>
      { s with images := (s.images.set (flatIdx ctx.xs.length ctx.ys.length c.1 c.2.1 c.2.2)
          (some (Img.blank "P" s.width s.height))) }

/-- `process_cell(x, y, z, ix, iy, iz)`: create the container from the
first processed cell if it does not exist yet, then fill the slot. -/
def processCell (ctx : GridCtx) (st : Option GridState) (c : Nat × Nat × Nat) :
    Option GridState :=
  let s :=
    match st with
    | some s => s
    | none => initGrid (ctx.cellAt c) (ctx.xs.length * ctx.ys.length * ctx.zs.length)
  some (writeSlot ctx s c)

/-- The nested `for` loops in one of the six plans enumerate exactly
this cell sequence. -/
def tripleEnum (n1 n2 n3 : Nat) : List (Nat × Nat × Nat) :=
  (List.range n1).product ((List.range n2).product (List.range n3))

/-- The cell visit order of the nested loops of `draw_xyz_grid` for a
given `first_axes_processed` / `second_axes_processed` choice; an
unrecognised first axis runs no loop at all (the `if/elif` chain falls
through). -/
def traversal (first second : String) (nx ny nz : Nat) : List (Nat × Nat × Nat) :=
  if first = "x" then
    if second = "y" then tripleEnum nx ny nz
    else (tripleEnum nx nz ny).map (fun t => (t.1, t.2.2, t.2.1))
  else if first = "y" then
    if second = "x" then (tripleEnum ny nx nz).map (fun t => (t.2.1, t.1, t.2.2))
    else (tripleEnum ny nz nx).map (fun t => (t.2.2, t.1, t.2.1))
  else if first = "z" then
    if second = "x" then (tripleEnum nz nx ny).map (fun t => (t.2.1, t.2.2, t.1))
    else (tripleEnum nz ny nx).map (fun t => (t.2.2, t.2.1, t.1))
  else []

/-- The whole cell-rendering phase. -/
def runCells (ctx : GridCtx) (first second : String) : Option GridState :=
  (traversal first second ctx.xs.length ctx.ys.length ctx.zs.length).foldl
    (processCell ctx) none

/-! ## Grid composition (draw_xyz_grid, lines 574-628) -/

/-- Width maximum over an image window
(`map(max, zip(*(img.size for img in ...)))`, first component). -/
def maxSizeW (w : List (Option Img)) : Nat :=
  (w.map (fun o => (o.map Img.sizeW).getD 0)).foldl max 0

/-- Height maximum over an image window. -/
def maxSizeH (w : List (Option Img)) : Nat :=
  (w.map (fun o => (o.map Img.sizeH).getD 0)).foldl max 0

/-- Iteration `i` of the slice-grid loop: build the grid of the block
`images[start_index:end_index]` with `start_index = i*len(xs)*len(ys) + i`
(the `+ i` accounts for the `i` grids already inserted), annotate it
when the legend is on, and insert grid and copied metadata at
position `i` in all four lists. -/
def sliceStep (ctx : GridCtx) (s : GridState) (i : Nat) : GridState :=
  let nxny := ctx.xs.length * ctx.ys.length
  let start := i * nxny + i
  let window := (s.images.drop start).take nxny
  let g0 := Img.gridOf window ctx.ys.length
  let g := if ctx.drawLegend then
      Img.annotated g0 (maxSizeW window) (maxSizeH window) ctx.xLabels ctx.yLabels ctx.margin
    else g0
  { s with images := s.images.insertIdx i (some g),
           allPrompts := s.allPrompts.insertIdx i (s.allPrompts.getD start none),
           allSeeds := s.allSeeds.insertIdx i (s.allSeeds.getD start none),
           infotexts := s.infotexts.insertIdx i (s.infotexts.getD start none) }

/-- `for i in range(z_count): ...` slice-grid insertions in ascending
Z order. -/
def sliceLoop (ctx : GridCtx) (s : GridState) : GridState :=
  (List.range ctx.zs.length).foldl (sliceStep ctx) s

/-- The top-level grid: one row of the `z_count` slice grids, inserted
at position 0 of `images`, with `infotexts.insert(0, infotexts[0])` —
and no corresponding insertion into `all_prompts`/`all_seeds`. -/
def topStep (ctx : GridCtx) (s : GridState) : GridState :=
  let zc := ctx.zs.length
  let zwin := s.images.take zc
  let g0 := Img.gridOf zwin 1
  let g := if ctx.drawLegend then
      Img.annotated g0 (maxSizeW zwin) (maxSizeH zwin) ctx.zLabels [""] 0
    else g0
  { s with images := (some g) :: s.images,
           infotexts := (s.infotexts.getD 0 none) :: s.infotexts }

/-- The degenerate `return Processed(p, [])`.  Modelled from the spec
for the constructor internals (not under src): an empty SweepResult
(spec section 7, degenerate result) carrying the request dimensions. -/
def emptyGrid (ctx : GridCtx) : GridState :=
  ⟨[], [], [], [], ctx.pWidth, ctx.pHeight⟩

/-- `draw_xyz_grid` for a given loop plan: run the cell loops, bail
out to an empty result when no cell ran or when every slot is falsy,
then insert slice grids and the top grid. -/
def drawXYZGrid (ctx : GridCtx) (first second : String) : GridState :=
  match runCells ctx first second with
  | none => emptyGrid ctx
  | some st =>
    if st.images.all (fun o => o.isNone) then emptyGrid ctx
    else topStep ctx (sliceLoop ctx st)

/-! ## Script.run result shaping (lines 1444-1745, saving omitted) -/

/-- `chunks = [values[i:i+n] for i in range(0, length, n)]`,
fuel-compiled; `n ≥ 1` always holds at the call site
(`max(1, int(items_per_grid))`). -/
def chunkListF {α : Type} : Nat → List α → Nat → List (List α)
  | 0, _, _ => []
  | _, [], _ => []
  | fuel + 1, l, n => l.take n :: chunkListF fuel (l.drop n) n

def chunkList {α : Type} (l : List α) (n : Nat) : List (List α) :=
  if n = 0 then [] else chunkListF l.length l n

/-- `main_axis = max(axis_lengths.items(), key=...)`: the first axis
of maximal length in the fixed iteration order x, y, z. -/
def mainAxisOf (nx ny nz : Nat) : String :=
  if nx ≥ ny ∧ nx ≥ nz then "x" else if ny ≥ nz then "y" else "z"

/-- The arguments of `Script.run` that shape the sweep result; labels
are produced from the formatter of each axis option. -/
structure RunCfg where
  xs : List AxisVal
  ys : List AxisVal
  zs : List AxisVal
  cellFn : AxisVal → AxisVal → AxisVal → Nat → Nat → Nat → Processed
  fmtX : AxisVal → String
  fmtY : AxisVal → String
  fmtZ : AxisVal → String
  drawLegend : Bool
  drawIndividualLabels : Bool
  margin : Nat
  pWidth : Nat
  pHeight : Nat
  pSeed : Int

def RunCfg.toCtx (cfg : RunCfg) : GridCtx :=
  ⟨cfg.xs, cfg.ys, cfg.zs, cfg.cellFn,
   cfg.xs.map cfg.fmtX, cfg.ys.map cfg.fmtY, cfg.zs.map cfg.fmtZ,
   cfg.drawLegend, cfg.drawIndividualLabels, cfg.margin,
   cfg.pWidth, cfg.pHeight, cfg.pSeed⟩

/-- Replace the main axis value list by one chunk (the other two axes
and the cell closure are held fixed, so within a chunk the cell
indices restart from 0 exactly as the source loops do). -/
def chunkCfg (cfg : RunCfg) (axis : String) (chunk : List AxisVal) : RunCfg :=
  if axis = "x" then { cfg with xs := chunk }
  else if axis = "y" then { cfg with ys := chunk }
  else { cfg with zs := chunk }

/-- Per-chunk trimming (lines 1497-1525): keep the main grid plus,
when individual images are included, the entries after the sub-grids;
otherwise only the first entry of each list.  (Python indexes
`images[0]` unguarded here; the model totalises with `take 1`.) -/
def chunkTrim (out : GridState) (zcChunk : Nat) (includeLone : Bool) : GridState :=
  if includeLone then
    { out with
      images := out.images.take 1 ++ out.images.drop (zcChunk + 1),
      infotexts := out.infotexts.take 1 ++ out.infotexts.drop (zcChunk + 1),
      allPrompts := out.allPrompts.take 1 ++ out.allPrompts.drop (zcChunk + 1),
      allSeeds := out.allSeeds.take 1 ++ out.allSeeds.drop (zcChunk + 1) }
  else
    { out with
      images := out.images.take 1,
      infotexts := out.infotexts.take 1,
      allPrompts := out.allPrompts.take 1,
      allSeeds := out.allSeeds.take 1 }

/-- The chunked branch (`items_per_grid > 0 and not skip_grid`, with
the dominant axis longer than one value): run the full draw pipeline
once per chunk and trim each output.  At chunk 0 the line
`final_processed = chunk_processed` makes the two names alias one
object, and the unconditional cleanup `chunk_processed.images = []`
(and likewise for the other three lists) then empties that shared
object, so chunk 0 contributes nothing; each later chunk extends the
surviving lists in place before its own (now unshared) cleanup.  The
returned result therefore holds the concatenation of the trimmed
outputs of chunks 1.. only — and is empty when there is one chunk —
while the non-list fields still come from the chunk-0 object. -/
def scriptRunChunked (cfg : RunCfg) (first second : String) (n : Nat)
    (includeLone : Bool) : GridState :=
  let axis := mainAxisOf cfg.xs.length cfg.ys.length cfg.zs.length
  let values := if axis = "x" then cfg.xs else if axis = "y" then cfg.ys else cfg.zs
  let chunks := chunkList values n
  let outs := chunks.map (fun ch =>
    let cfg2 := chunkCfg cfg axis ch
    chunkTrim (drawXYZGrid cfg2.toCtx first second) cfg2.zs.length includeLone)
  match outs with
  | [] => ⟨[], [], [], [], cfg.pWidth, cfg.pHeight⟩
  | o0 :: rest =>
    { o0 with images := (rest.map (·.images)).flatten,
              allPrompts := (rest.map (·.allPrompts)).flatten,
              allSeeds := (rest.map (·.allSeeds)).flatten,
              infotexts := (rest.map (·.infotexts)).flatten }

/-- `processed.infotexts[:1+z_count] = grid_infotext[:1+z_count]` —
slice assignment with the closure list filled by `cell`. -/
def spliceInfos (gridInfos : List (Option String)) (infos : List (Option String))
    (zc : Nat) : List (Option String) :=
  gridInfos.take (1 + zc) ++ infos.drop (1 + zc)

/-- The unchunked grid branch (lines 1608-1745): draw, bail out on an
empty result, install the grid-level infotexts, then reorganise the
four lists according to the include flags. -/
def scriptRunGrid (cfg : RunCfg) (first second : String)
    (includeLone includeSub : Bool) (gridInfos : List (Option String)) : GridState :=
  let processed := drawXYZGrid cfg.toCtx first second
  if processed.images.isEmpty then processed
  else
    let zc := cfg.zs.length
    let processed := { processed with
      infotexts := spliceInfos gridInfos processed.infotexts zc }
    if includeLone then
      { processed with
        images := processed.images.take 1
          ++ (if includeSub then (processed.images.drop 1).take zc else [])
          ++ processed.images.drop (zc + 1),
        infotexts := processed.infotexts.take 1
          ++ (if includeSub then (processed.infotexts.drop 1).take zc else [])
          ++ processed.infotexts.drop (zc + 1),
        allPrompts := processed.allPrompts.take 1
          ++ (if includeSub then (processed.allPrompts.drop 1).take zc else [])
          ++ processed.allPrompts.drop (zc + 1),
        allSeeds := processed.allSeeds.take 1
          ++ (if includeSub then (processed.allSeeds.drop 1).take zc else [])
          ++ processed.allSeeds.drop (zc + 1) }
    else if includeSub then
      { processed with
        images := processed.images.take (zc + 1),
        infotexts := processed.infotexts.take (zc + 1),
        allPrompts := processed.allPrompts.take (zc + 1),
        allSeeds := processed.allSeeds.take (zc + 1) }
    else
      { processed with
        images := processed.images.take 1,
        infotexts := processed.infotexts.take 1,
        allPrompts := processed.allPrompts.take 1,
        allSeeds := processed.allSeeds.take 1 }

/-! ## The skip-grid branch (lines 1565-1607) -/

/-- Accumulator of the individual-image loop: the four result lists of
the fresh `Processed` container plus the number of interruption-flag
polls performed so far (the flag is externally mutable and is modelled
as a function of the poll counter). -/
structure SkipSt where
  polls : Nat
  images : List Img
  infotexts : List String
  allPrompts : List String
  allSeeds : List Int

/-- `if proc.images: extend all four lists` — a cell with an empty
image list contributes nothing at all. -/
def skipExtend (st : SkipSt) (pr : Processed) : SkipSt :=
  if pr.images.isEmpty then st
  else
    { st with images := st.images ++ pr.images,
              infotexts := st.infotexts ++ pr.infotexts,
              allPrompts := st.allPrompts ++ pr.allPrompts,
              allSeeds := st.allSeeds ++ pr.allSeeds }

/-- The innermost `for ix` loop: poll the interruption flag before
each cell and `break` out of this loop when it is set. -/
def skipXLoop (intr : Nat → Bool) (cellFn : Nat → Nat → Nat → Processed)
    (iy iz : Nat) : SkipSt → List Nat → SkipSt
  | st, [] => st
  | st, ix :: rest =>
    if intr st.polls then { st with polls := st.polls + 1 }
    else
      let st1 := { st with polls := st.polls + 1 }
      skipXLoop intr cellFn iy iz (skipExtend st1 (cellFn ix iy iz)) rest

/-- The skip-grid branch: iterate z, then y, then x innermost,
collecting only cells that returned at least one image. -/
def skipGridRun (intr : Nat → Bool) (cellFn : Nat → Nat → Nat → Processed)
    (nx ny nz : Nat) : SkipSt :=
  (List.range nz).foldl (fun st iz =>
    (List.range ny).foldl (fun st iy =>
      skipXLoop intr cellFn iy iz st (List.range nx)) st)
    ⟨0, [], [], [], []⟩

/-! ## The try/except of cell (lines 1303-1403)

The renderer `process_images(pc)` is an external call that may raise:
its outcome is a parameter of type `Except String Processed`.  The
interruption pre-check returns an empty result; a raised exception is
caught, displayed, and replaced by an empty result; on success with
individual labels on, the first image is replaced by a labeled copy. -/

def cellRun (interrupted : Bool) (drawIndividualLabels : Bool) (label : String)
    (pWidth pHeight : Nat) (pSeed : Int)
    (renderOutcome : Except String Processed) : Processed :=
  if interrupted then emptyProcessed pWidth pHeight pSeed
  else
    match renderOutcome with
    | .error _ => emptyProcessed pWidth pHeight pSeed
    | .ok res =>
      if drawIndividualLabels then
        match res.images with
        | img0 :: rest => { res with images := Img.labeled img0 label :: rest }
        | [] => res
      else res

/-! ## Registry entries and auxiliary definitions used by the theorems -/

instance {ε α : Type} [DecidableEq ε] [DecidableEq α] : DecidableEq (Except ε α) :=
  fun a b =>
    match a, b with
    | .ok x, .ok y => if h : x = y then .isTrue (by rw [h]) else .isFalse (by simp [h])
    | .error x, .error y => if h : x = y then .isTrue (by rw [h]) else .isFalse (by simp [h])
    | .ok _, .error _ => .isFalse (by simp)
    | .error _, .ok _ => .isFalse (by simp)

/-- `AxisOption("Nothing", str, do_nothing, format_value=format_nothing)`. -/
def nothingAxisOpt : AxisOpt :=
  ⟨"Nothing", .str, false, none, none⟩

/-- `AxisOption("Steps", int, apply_field("steps"))`. -/
def stepsAxisOpt : AxisOpt :=
  ⟨"Steps", .int, false, none, none⟩

/-- The six loop plans the planner can emit. -/
def validOrders : List (String × String) :=
  [("x", "y"), ("x", "z"), ("y", "x"), ("y", "z"), ("z", "x"), ("z", "y")]

/-- The mode and size `draw_xyz_grid` uses for every blank placeholder
of a run: slot 0 is filled by the first processed cell — always cell
(0,0,0) — and never overwritten, so a failing cell copies the mode and
size of the first image of cell (0,0,0) when that cell produced one
(label overlay preserves both), and otherwise the template dimensions
with mode "P". -/
def placeholderSpec (ctx : GridCtx) : String × Nat × Nat :=
  match (ctx.cellAt (0, 0, 0)).images with
  | i0 :: _ => (i0.mode, i0.sizeW, i0.sizeH)
  | [] => ("P", (ctx.cellAt (0, 0, 0)).width, (ctx.cellAt (0, 0, 0)).height)

/-! Concrete fixtures for counterexamples and witnesses. -/

/-- A renderer that always succeeds with a 100x100 image tagged by the
cell coordinates. -/
def okCellEx : AxisVal → AxisVal → AxisVal → Nat → Nat → Nat → Processed :=
  fun _ _ _ ix iy iz =>
    ⟨[Img.pic "RGB" 100 100 (ix + 10 * iy + 100 * iz)], "p", 5, ["info"], ["p"], [5], 64, 64⟩

/-- A renderer that fails everywhere except at x-index 1, where it
returns a 100x100 image; the request is 64x64. -/
def mixCellEx : AxisVal → AxisVal → AxisVal → Nat → Nat → Nat → Processed :=
  fun _ _ _ ix _ _ =>
    if ix = 1 then ⟨[Img.pic "RGB" 100 100 1], "p", 5, ["info"], ["p"], [5], 64, 64⟩
    else emptyProcessed 64 64 7

/-- 1x1x1 sweep with the always-succeeding renderer. -/
def cexCtx1 : GridCtx :=
  ⟨[.i 0], [.i 0], [.i 0], okCellEx, ["a"], ["b"], ["c"], false, false, 0, 64, 64, 7⟩

/-- 3x1x1 sweep where cells 0 and 2 fail and cell 1 succeeds. -/
def cexCtx7 : GridCtx :=
  ⟨[.i 0, .i 1, .i 2], [.i 0], [.i 0], mixCellEx, ["a", "b", "c"], ["y"], ["z"],
   false, false, 0, 64, 64, 7⟩

/-- 10x1x1 run configuration: ten X values for the chunk-size-4 example. -/
def cexCfg10 : RunCfg :=
  ⟨[.i 0, .i 1, .i 2, .i 3, .i 4, .i 5, .i 6, .i 7, .i 8, .i 9], [.i 0], [.i 0],
   okCellEx, fun _ => "fx", fun _ => "fy", fun _ => "fz", false, false, 0, 64, 64, 7⟩

/-- 2x1x1 run configuration for the chunking comparison. -/
def cexCfg3 : RunCfg :=
  ⟨[.i 0, .i 1], [.i 0], [.i 0], okCellEx,
   fun _ => "fx", fun _ => "fy", fun _ => "fz", false, false, 0, 64, 64, 7⟩

/-- Grid-level infotexts fixture (`grid_infotext` has length
`1 + len(zs)`). -/
def cexGridInfos : List (Option String) :=
  [some "gi0", some "gi1"]

/-- Template heap: one styles list object (the style "base"), one
empty override-settings dict. -/
def cexHeap : Heap :=
  ⟨[["base"]], [[]]⟩

/-- Template request referencing the heap objects above. -/
def cexReq : Req :=
  ⟨"a prompt", "a negative prompt", 1, 20, "Euler", 64, 64, 0, 0⟩

/-- A renderer for the skip-grid witness: cell (ix, iy, iz) returns
`ix` images with metadata lists of matching length, so the x=0 cell
contributes nothing to the output. -/
def stairCellEx : Nat → Nat → Nat → Processed :=
  fun ix _ _ =>
    ⟨List.replicate ix (Img.pic "RGB" 1 1 0), "p", 5,
     List.replicate ix "i", List.replicate ix "p", List.replicate ix 5, 64, 64⟩

/-! # Claim theorems -/

/-- C5: for every triple of axis costs, the axis with strictly the
highest cost becomes `first_axes_processed`; among the remaining two,
the strictly costlier one becomes `second_axes_processed`; when no
axis has strictly the highest cost, the order defaults to Z outermost
and Y second. -/
theorem planner_nesting {α : Type} [LinearOrder α] (cx cy cz : α) :
    (cx > cy → cx > cz → (planOrder cx cy cz).1 = "x"
      ∧ (cy > cz → planOrder cx cy cz = ("x", "y"))
      ∧ (cz > cy → planOrder cx cy cz = ("x", "z")))
  ∧ (cy > cx → cy > cz → (planOrder cx cy cz).1 = "y"
      ∧ (cx > cz → planOrder cx cy cz = ("y", "x"))
      ∧ (cz > cx → planOrder cx cy cz = ("y", "z")))
  ∧ (cz > cx → cz > cy → (planOrder cx cy cz).1 = "z"
      ∧ (cx > cy → planOrder cx cy cz = ("z", "x"))
      ∧ (cy > cx → planOrder cx cy cz = ("z", "y")))
  ∧ (¬(cx > cy ∧ cx > cz) → ¬(cy > cx ∧ cy > cz) → ¬(cz > cx ∧ cz > cy) →
      planOrder cx cy cz = ("z", "y")) := by
  refine ⟨fun h1 h2 => ?_, fun h1 h2 => ?_, fun h1 h2 => ?_, fun h1 h2 h3 => ?_⟩
  · unfold planOrder
    rw [if_pos ⟨h1, h2⟩]
    refine ⟨rfl, fun h3 => ?_, fun h3 => ?_⟩
    · rw [if_pos h3]
    · rw [if_neg (lt_asymm h3)]
  · unfold planOrder
    rw [if_neg (fun k => lt_asymm h1 k.1), if_pos ⟨h1, h2⟩]
    refine ⟨rfl, fun h3 => ?_, fun h3 => ?_⟩
    · rw [if_pos h3]
    · rw [if_neg (lt_asymm h3)]
  · unfold planOrder
    rw [if_neg (fun k => lt_asymm h1 k.2), if_neg (fun k => lt_asymm h2 k.2),
      if_pos ⟨h1, h2⟩]
    refine ⟨rfl, fun h3 => ?_, fun h3 => ?_⟩
    · rw [if_pos h3]
    · rw [if_neg (lt_asymm h3)]
  · unfold planOrder
    rw [if_neg h1, if_neg h2, if_neg h3]

/-- C5 witness: a strict maximum at X with Y above Z gives ("x", "y");
an all-tie gives the default ("z", "y"). -/
theorem planner_nesting_witness :
    planOrder (2 : Int) 1 0 = ("x", "y") ∧ planOrder (0 : Int) 0 0 = ("z", "y") := by
  constructor
  · exact ((planner_nesting (2 : Int) 1 0).1 (by decide) (by decide)).2.1 (by decide)
  · exact (planner_nesting (0 : Int) 0 0).2.2.2 (by decide) (by decide) (by decide)

/-- C6: the seed of a cell is the template seed plus additively
composed offsets: `+ ix` when X varies, `+ iy * xdim` when Y varies,
`+ iz * xdim * ydim` when Z varies, with `xdim = |X|` when X varies
else 1 and `ydim = |Y|` when Y varies else 1; in particular with
vary-X and vary-Z on, vary-Y off, `|X| = 4`, cell (2,1,1) yields
`S + 6`. -/
theorem seed_offsets_compose (seed0 : Int) (vx vy vz : Bool) (nx ny ix iy iz : Nat) :
    cellSeed seed0 vx vy vz nx ny ix iy iz =
      seed0 + (if vx then (ix : Int) else 0)
            + (if vy then (iy : Int) * (if vx then (nx : Int) else 1) else 0)
            + (if vz then (iz : Int) * (if vx then (nx : Int) else 1) *
                (if vy then (ny : Int) else 1) else 0)
    ∧ cellSeed seed0 true false true 4 7 2 1 1 = seed0 + 6 := by
  constructor
  · unfold cellSeed
    cases vx <;> cases vy <;> cases vz <;> simp <;> ring
  · unfold cellSeed
    norm_num
    omega

theorem reRangeMatch_strip_ne (tok : String) (r : List Char × List Char × Option (List Char))
    (hm : reRangeMatch tok = some r) : pyStripChars tok.data ≠ [] := by
  intro hempty
  have hall : ∀ x ∈ tok.data.dropWhile isPySpace, isPySpace x = true := by
    have h1 : ((tok.data.dropWhile isPySpace).reverse.dropWhile isPySpace).reverse = [] := hempty
    have h2 : (tok.data.dropWhile isPySpace).reverse.dropWhile isPySpace = [] := by
      simpa using h1
    intro x hx
    exact List.dropWhile_eq_nil_iff.mp h2 x (List.mem_reverse.mpr hx)
  have hnil : tok.data.dropWhile isPySpace = [] := by
    cases hd : tok.data.dropWhile isPySpace with
    | nil => rfl
    | cons c t =>
      have hne : tok.data.dropWhile isPySpace ≠ [] := by rw [hd]; simp
      have hc := List.head_dropWhile_not isPySpace tok.data hne
      simp only [hd, List.head_cons] at hc
      have := hall c (by rw [hd]; exact List.mem_cons_self c t)
      rw [hc] at this
      exact absurd this (by simp)
  unfold reRangeMatch skipWs at hm
  rw [hnil] at hm
  unfold grpSignedWsDigits at hm
  simp at hm

theorem pyRangeUp_getElem (s b : Int) :
    ∀ (fuel : Nat) (a : Int) (i : Nat), i < (pyRangeUp s b fuel a).length →
      (pyRangeUp s b fuel a)[i]? = some (a + s * i) := by
  intro fuel
  induction fuel with
  | zero => intro a i hi; simp [pyRangeUp] at hi
  | succ f ih =>
    intro a i hi
    by_cases hab : a < b
    · rw [show pyRangeUp s b (f + 1) a = a :: pyRangeUp s b f (a + s) from by
        simp [pyRangeUp, hab]] at hi ⊢
      cases i with
      | zero => simp
      | succ j =>
        have hj : j < (pyRangeUp s b f (a + s)).length := by simpa using hi
        rw [List.getElem?_cons_succ, ih (a + s) j hj]
        congr 1
        push_cast
        ring
    · rw [show pyRangeUp s b (f + 1) a = [] from by simp [pyRangeUp, hab]] at hi
      simp at hi

theorem pyRangeDown_getElem (s b : Int) :
    ∀ (fuel : Nat) (a : Int) (i : Nat), i < (pyRangeDown s b fuel a).length →
      (pyRangeDown s b fuel a)[i]? = some (a + s * i) := by
  intro fuel
  induction fuel with
  | zero => intro a i hi; simp [pyRangeDown] at hi
  | succ f ih =>
    intro a i hi
    by_cases hab : b < a
    · rw [show pyRangeDown s b (f + 1) a = a :: pyRangeDown s b f (a + s) from by
        simp [pyRangeDown, hab]] at hi ⊢
      cases i with
      | zero => simp
      | succ j =>
        have hj : j < (pyRangeDown s b f (a + s)).length := by simpa using hi
        rw [List.getElem?_cons_succ, ih (a + s) j hj]
        congr 1
        push_cast
        ring
    · rw [show pyRangeDown s b (f + 1) a = [] from by simp [pyRangeDown, hab]] at hi
      simp at hi

theorem pyRangeUp_mem (s b : Int) (hs : 0 < s) :
    ∀ (fuel : Nat) (a : Int), b - a ≤ fuel →
      ∀ t : Int, t ∈ pyRangeUp s b fuel a ↔ ∃ k : Nat, t = a + s * k ∧ a + s * k < b := by
  intro fuel
  induction fuel with
  | zero =>
    intro a hf t
    simp only [pyRangeUp, List.not_mem_nil, false_iff]
    rintro ⟨k, -, hk⟩
    have : (0 : Int) ≤ s * k := mul_nonneg hs.le (Int.natCast_nonneg k)
    omega
  | succ f ih =>
    intro a hf t
    by_cases hab : a < b
    · rw [show pyRangeUp s b (f + 1) a = a :: pyRangeUp s b f (a + s) from by
        simp [pyRangeUp, hab]]
      rw [List.mem_cons, ih (a + s) (by omega) t]
      constructor
      · rintro (rfl | ⟨k, rfl, hk⟩)
        · exact ⟨0, by simp, by simpa⟩
        · refine ⟨k + 1, by push_cast; ring, ?_⟩
          have : a + s * ((k : Int) + 1) = a + s + s * k := by ring
          push_cast
          omega
      · rintro ⟨k, rfl, hk⟩
        cases k with
        | zero => left; simp
        | succ j =>
          right
          refine ⟨j, by push_cast; ring, ?_⟩
          have : a + s * ((j : Int) + 1) = a + s + s * j := by ring
          push_cast at hk
          omega
    · rw [show pyRangeUp s b (f + 1) a = [] from by simp [pyRangeUp, hab]]
      simp only [List.not_mem_nil, false_iff]
      rintro ⟨k, -, hk⟩
      have : (0 : Int) ≤ s * k := mul_nonneg hs.le (Int.natCast_nonneg k)
      omega

theorem pyRangeDown_mem (s b : Int) (hs : s < 0) :
    ∀ (fuel : Nat) (a : Int), a - b ≤ fuel →
      ∀ t : Int, t ∈ pyRangeDown s b fuel a ↔ ∃ k : Nat, t = a + s * k ∧ b < a + s * k := by
  intro fuel
  induction fuel with
  | zero =>
    intro a hf t
    simp only [pyRangeDown, List.not_mem_nil, false_iff]
    rintro ⟨k, -, hk⟩
    have : s * k ≤ 0 := mul_nonpos_of_nonpos_of_nonneg hs.le (Int.natCast_nonneg k)
    omega
  | succ f ih =>
    intro a hf t
    by_cases hab : b < a
    · rw [show pyRangeDown s b (f + 1) a = a :: pyRangeDown s b f (a + s) from by
        simp [pyRangeDown, hab]]
      rw [List.mem_cons, ih (a + s) (by omega) t]
      constructor
      · rintro (rfl | ⟨k, rfl, hk⟩)
        · exact ⟨0, by simp, by simpa⟩
        · refine ⟨k + 1, by push_cast; ring, ?_⟩
          have : a + s * ((k : Int) + 1) = a + s + s * k := by ring
          push_cast
          omega
      · rintro ⟨k, rfl, hk⟩
        cases k with
        | zero => left; simp
        | succ j =>
          right
          refine ⟨j, by push_cast; ring, ?_⟩
          have : a + s * ((j : Int) + 1) = a + s + s * j := by ring
          push_cast at hk
          omega
    · rw [show pyRangeDown s b (f + 1) a = [] from by simp [pyRangeDown, hab]]
      simp only [List.not_mem_nil, false_iff]
      rintro ⟨k, -, hk⟩
      have : s * k ≤ 0 := mul_nonpos_of_nonpos_of_nonneg hs.le (Int.natCast_nonneg k)
      omega

/-- C4 (amended): for every integer range token that `re_range`
matches with groups a, b and an explicitly signed step s (s defaulting
to 1 when the parenthesized part is absent, and s nonzero), the
integer branch of `process_axis` expands the token to exactly
`list(range(a, b+1, s))`: the i-th element is `a + s*i`, and for a
positive step the elements are precisely the values `a + s*k ≤ b`
(inclusive end), for a negative step precisely the values
`a + s*k > b+1`.  The step must carry its sign: the spec example
"1-5(2)" is not matched (see the counterexample); "1-5(+2)" is. -/
theorem range_token_expansion (tok : String) (g1 g2 : List Char)
    (og3 : Option (List Char)) (a b s : Int)
    (hm : reRangeMatch tok = some (g1, g2, og3))
    (h1 : pyInt (String.mk g1) = some a)
    (h2 : pyInt (String.mk g2) = some b)
    (hs : match og3 with
          | none => s = 1
          | some g => pyInt (String.mk g) = some s)
    (hnz : s ≠ 0) :
    intTokenExpand tok = .ok ((pyRange a (b + 1) s).map Sum.inl)
    ∧ (∀ i : Nat, i < (pyRange a (b + 1) s).length →
        (pyRange a (b + 1) s)[i]? = some (a + s * i))
    ∧ (0 < s → ∀ t : Int, (t ∈ pyRange a (b + 1) s ↔ ∃ k : Nat, t = a + s * k ∧ t ≤ b))
    ∧ (s < 0 → ∀ t : Int, (t ∈ pyRange a (b + 1) s ↔ ∃ k : Nat, t = a + s * k ∧ b + 1 < t)) := by
  refine ⟨?_, ?_, ?_, ?_⟩
  · unfold intTokenExpand
    rw [if_neg (reRangeMatch_strip_ne tok _ hm), hm]
    simp only [h1, h2]
    cases og3 with
    | none =>
      simp only at hs
      subst hs
      rfl
    | some g =>
      simp only at hs
      dsimp only
      rw [hs]
      dsimp only
      rw [if_neg hnz]
  · intro i hi
    unfold pyRange at hi ⊢
    by_cases hpos : 0 < s
    · rw [if_pos hpos] at hi ⊢
      exact pyRangeUp_getElem s (b + 1) _ a i hi
    · rw [if_neg hpos] at hi ⊢
      have hneg : s < 0 := by omega
      rw [if_pos hneg] at hi ⊢
      exact pyRangeDown_getElem s (b + 1) _ a i hi
  · intro hpos t
    unfold pyRange
    rw [if_pos hpos]
    rw [pyRangeUp_mem s (b + 1) hpos _ a (by omega) t]
    constructor
    · rintro ⟨k, rfl, hk⟩; exact ⟨k, rfl, by omega⟩
    · rintro ⟨k, rfl, hk⟩; exact ⟨k, rfl, by omega⟩
  · intro hneg t
    unfold pyRange
    rw [if_neg (show ¬ 0 < s by omega), if_pos hneg]
    rw [pyRangeDown_mem s (b + 1) hneg ((a - (b + 1)).toNat) a (by omega) t]
    constructor
    · rintro ⟨k, rfl, hk⟩; exact ⟨k, rfl, hk⟩
    · rintro ⟨k, rfl, hk⟩; exact ⟨k, rfl, hk⟩

/-- C4 witness: "1-5(+2)" expands to [1, 3, 5]. -/
theorem range_token_expansion_witness :
    intTokenExpand "1-5(+2)" = .ok [Sum.inl 1, Sum.inl 3, Sum.inl 5] :=
  (range_token_expansion "1-5(+2)" ['1'] ['5'] (some ['+', '2']) 1 5 2
    rfl rfl rfl rfl (by decide)).1.trans rfl

/-- C4 counterexample: the token "1-5(2)" of the claim does not match
`re_range` (the step group requires an explicit sign), is kept as a
literal, and then aborts the sweep with a ValueError instead of
parsing to [1, 3, 5]; the signed form "1-5(+2)" yields [1, 3, 5]. -/
theorem range_token_unsigned_step_cex :
    reRangeMatch "1-5(2)" = none
    ∧ intTokenExpand "1-5(2)" = .ok [Sum.inr "1-5(2)"]
    ∧ process_axis true stepsAxisOpt "1-5(2)" [] = .error "ValueError: invalid literal for int()"
    ∧ process_axis true stepsAxisOpt "1-5(2)" [] ≠ .ok [AxisVal.i 1, AxisVal.i 3, AxisVal.i 5]
    ∧ process_axis true stepsAxisOpt "1-5(+2)" [] = .ok [AxisVal.i 1, AxisVal.i 3, AxisVal.i 5] := by
  refine ⟨rfl, rfl, rfl, ?_, rfl⟩
  decide

/-- C8 (amended): the "Nothing" axis always parses to exactly the
single placeholder `[0]`, whatever the raw text or dropdown selection.
But an empty raw specification on any other axis (no text tokens, no
dropdown selection, no prepare hook, no validator) parses to the EMPTY
list for the int, float and str axis types — not to a one-element
placeholder list, so the cartesian product can be empty — while the
permutation type yields the single empty permutation. -/
theorem axis_empty_spec (opt : AxisOpt) (csvMode : Bool) (vals : String)
    (valsDropdown : List String) :
    (opt.label = "Nothing" → process_axis csvMode opt vals valsDropdown = .ok [.i 0])
    ∧ (opt.label ≠ "Nothing" → opt.prepare = none → opt.confirm = none →
       (opt.type = .int ∨ opt.type = .float ∨ opt.type = .str) →
       process_axis csvMode opt "" [] = .ok [])
    ∧ (opt.label ≠ "Nothing" → opt.prepare = none → opt.confirm = none →
       opt.type = .strPerm →
       process_axis csvMode opt "" [] = .ok [.perm []]) := by
  refine ⟨fun hl => ?_, fun hl hp hc ht => ?_, fun hl hp hc ht => ?_⟩
  · unfold process_axis
    rw [if_pos hl]
  · unfold process_axis
    rw [if_neg hl]
    simp only [hp, hc]
    rcases ht with h | h | h <;> rw [h] <;>
      by_cases hch : opt.hasChoices ∧ ¬csvMode <;>
      (simp [hch, csv_string_to_list_strip, csvRows]; try rfl)
  · unfold process_axis
    rw [if_neg hl]
    simp only [hp, hc, ht]
    by_cases hch : opt.hasChoices ∧ ¬csvMode <;>
      (simp [hch, csv_string_to_list_strip, csvRows, pyPermutations, pyPermsF]; try rfl)

/-- C8 witness: the Nothing axis with junk input gives [0]; the
integer Steps axis with empty input gives []. -/
theorem axis_empty_spec_witness :
    process_axis false nothingAxisOpt "ignored, text" ["junk"] = .ok [.i 0]
    ∧ process_axis true stepsAxisOpt "" [] = .ok [] := by
  constructor
  · exact (axis_empty_spec nothingAxisOpt false "ignored, text" ["junk"]).1 rfl
  · exact (axis_empty_spec stepsAxisOpt true "" []).2.1 (by decide) rfl rfl (Or.inl rfl)

/-- C8 counterexample: the integer Steps axis with an empty raw
specification parses to the empty list, which is not a one-element
placeholder list. -/
theorem axis_empty_spec_cex :
    process_axis true stepsAxisOpt "" [] = .ok ([] : List AxisVal)
    ∧ ([] : List AxisVal).length ≠ 1 := ⟨rfl, by decide⟩

theorem getD_append_left {α : Type} (l l2 : List α) (i : Nat) (d : α)
    (h : i < l.length) : (l ++ l2).getD i d = l.getD i d := by
  simp [List.getD_eq_getElem?_getD, List.getElem?_append_left h]

theorem getD_set_ne {α : Type} (l : List α) (i j : Nat) (a : α) (d : α)
    (h : i ≠ j) : (l.set i a).getD j d = l.getD j d := by
  simp [List.getD_eq_getElem?_getD, List.getElem?_set_ne h]

theorem stylesView_clone_outer (h : Heap) (p q : Req)
    (hq : q.stylesRef < h.lists.length) :
    stylesView (cloneForCell h p).1 q = stylesView h q := by
  simp only [stylesView, cloneForCell]
  exact getD_append_left _ _ _ _ hq

theorem stylesView_clone_self (h : Heap) (p : Req) :
    stylesView (cloneForCell h p).1 (cloneForCell h p).2 = stylesView h p := by
  simp only [stylesView, cloneForCell, List.getD_eq_getElem?_getD]
  rw [List.getElem?_concat_length]
  rfl

/-- C2 (amended): the per-cell clone isolates every axis-apply
mutation except those that write the override-settings dict: applying
a setattr field, a prompt search/replace, or a styles-list extension
to one cell clone changes neither the template request views (styles
list, override dict) nor the views of another, earlier cell clone.
Mutations through `apply_override` (and likewise `apply_checkpoint`,
`apply_vae`) are excluded: the dict object is shared by the shallow
copy, see the counterexample. -/
theorem clone_isolates_non_override (h : Heap) (p : Req) (op : ApplyOp)
    (hstyles : p.stylesRef < h.lists.length)
    (hop : op.usesOverrideDict = false) :
    ∀ h3 c2x,
      applyOp op (cloneForCell (cloneForCell h p).1 p).1
        (cloneForCell (cloneForCell h p).1 p).2 = .ok (h3, c2x) →
      stylesView h3 p = stylesView h p
      ∧ overrideView h3 p = overrideView h p
      ∧ stylesView h3 (cloneForCell h p).2 = stylesView h p
      ∧ overrideView h3 (cloneForCell h p).2 = overrideView h p := by
  intro h3 c2x happ
  have hq1 : p.stylesRef < ((cloneForCell h p).1).lists.length := by
    simp only [cloneForCell, List.length_append]
    omega
  have hc1 : ((cloneForCell h p).2).stylesRef < ((cloneForCell h p).1).lists.length := by
    simp only [cloneForCell, List.length_append, List.length_cons, List.length_nil]
    omega
  have viewp : stylesView (cloneForCell (cloneForCell h p).1 p).1 p = stylesView h p :=
    (stylesView_clone_outer _ p p hq1).trans (stylesView_clone_outer h p p hstyles)
  have viewc1 : stylesView (cloneForCell (cloneForCell h p).1 p).1 (cloneForCell h p).2
      = stylesView h p :=
    (stylesView_clone_outer _ p _ hc1).trans (stylesView_clone_self h p)
  cases op with
  | overrideSet f v => simp [ApplyOp.usesOverrideDict] at hop
  | setSeed v =>
    cases happ
    exact ⟨viewp, rfl, viewc1, rfl⟩
  | setSteps v =>
    cases happ
    exact ⟨viewp, rfl, viewc1, rfl⟩
  | setSampler v =>
    cases happ
    exact ⟨viewp, rfl, viewc1, rfl⟩
  | promptSR x anchor =>
    simp only [applyOp] at happ
    split at happ
    · cases happ
    · cases happ
      exact ⟨viewp, rfl, viewc1, rfl⟩
  | styles x =>
    cases happ
    have hset1 : ((cloneForCell (cloneForCell h p).1 p).2).stylesRef ≠ p.stylesRef := by
      simp only [cloneForCell, List.length_append, List.length_cons, List.length_nil]
      omega
    have hset2 : ((cloneForCell (cloneForCell h p).1 p).2).stylesRef
        ≠ ((cloneForCell h p).2).stylesRef := by
      simp only [cloneForCell, List.length_append, List.length_cons, List.length_nil]
      omega
    refine ⟨?_, rfl, ?_, rfl⟩
    · exact (getD_set_ne _ _ _ _ _ hset1).trans viewp
    · exact (getD_set_ne _ _ _ _ _ hset2).trans viewc1

/-- C2 witness: extending the styles list of the second clone leaves
the template and the first clone views of the concrete fixture heap
unchanged. -/
theorem clone_isolates_non_override_witness :
    stylesView (⟨[["base"], ["base"], ["base", "s2"]], [[]]⟩ : Heap) cexReq
      = stylesView cexHeap cexReq
    ∧ overrideView (⟨[["base"], ["base"], ["base", "s2"]], [[]]⟩ : Heap) cexReq
      = overrideView cexHeap cexReq
    ∧ stylesView (⟨[["base"], ["base"], ["base", "s2"]], [[]]⟩ : Heap)
        (cloneForCell cexHeap cexReq).2 = stylesView cexHeap cexReq
    ∧ overrideView (⟨[["base"], ["base"], ["base", "s2"]], [[]]⟩ : Heap)
        (cloneForCell cexHeap cexReq).2 = overrideView cexHeap cexReq :=
  clone_isolates_non_override cexHeap cexReq (ApplyOp.styles "s2") (by decide) rfl
    ⟨[["base"], ["base"], ["base", "s2"]], [[]]⟩
    (cloneForCell (cloneForCell cexHeap cexReq).1 cexReq).2 rfl

/-- C2 counterexample: applying the override axis function
(`apply_override("sd_vae")` as used by the VAE axis) on the second
cell clone is visible through the caller template AND through the
first cell clone: their override-settings views change from [] to
[("sd_vae", "None")], because `copy(p)` shares the dict object. -/
theorem override_apply_leaks_cex :
    ((applyOp (.overrideSet "sd_vae" "None")
        (cloneForCell (cloneForCell cexHeap cexReq).1 cexReq).1
        (cloneForCell (cloneForCell cexHeap cexReq).1 cexReq).2).map
      (fun r => overrideView r.1 cexReq)) = .ok [("sd_vae", "None")]
    ∧ overrideView cexHeap cexReq = []
    ∧ ((applyOp (.overrideSet "sd_vae" "None")
        (cloneForCell (cloneForCell cexHeap cexReq).1 cexReq).1
        (cloneForCell (cloneForCell cexHeap cexReq).1 cexReq).2).map
      (fun r => overrideView r.1 (cloneForCell cexHeap cexReq).2)) = .ok [("sd_vae", "None")]
    ∧ ([("sd_vae", "None")] : List (String × String)) ≠ [] :=
  ⟨rfl, rfl, rfl, by decide⟩

theorem skipExtend_lens (st : SkipSt) (pr : Processed)
    (hst : st.images.length = st.infotexts.length
      ∧ st.images.length = st.allPrompts.length
      ∧ st.images.length = st.allSeeds.length)
    (hpr : pr.images.length = pr.infotexts.length
      ∧ pr.images.length = pr.allPrompts.length
      ∧ pr.images.length = pr.allSeeds.length) :
    (skipExtend st pr).images.length = (skipExtend st pr).infotexts.length
    ∧ (skipExtend st pr).images.length = (skipExtend st pr).allPrompts.length
    ∧ (skipExtend st pr).images.length = (skipExtend st pr).allSeeds.length := by
  unfold skipExtend
  split
  · exact hst
  · simp only [List.length_append]
    omega

theorem skipXLoop_lens (intr : Nat → Bool) (cellFn : Nat → Nat → Nat → Processed)
    (iy iz : Nat) : ∀ (l : List Nat) (st : SkipSt),
    (st.images.length = st.infotexts.length
      ∧ st.images.length = st.allPrompts.length
      ∧ st.images.length = st.allSeeds.length) →
    (∀ ix ∈ l, (cellFn ix iy iz).images.length = (cellFn ix iy iz).infotexts.length
      ∧ (cellFn ix iy iz).images.length = (cellFn ix iy iz).allPrompts.length
      ∧ (cellFn ix iy iz).images.length = (cellFn ix iy iz).allSeeds.length) →
    ((skipXLoop intr cellFn iy iz st l).images.length
        = (skipXLoop intr cellFn iy iz st l).infotexts.length
      ∧ (skipXLoop intr cellFn iy iz st l).images.length
        = (skipXLoop intr cellFn iy iz st l).allPrompts.length
      ∧ (skipXLoop intr cellFn iy iz st l).images.length
        = (skipXLoop intr cellFn iy iz st l).allSeeds.length) := by
  intro l
  induction l with
  | nil => intro st hst _; exact hst
  | cons ix rest ih =>
    intro st hst hl
    unfold skipXLoop
    split
    · exact hst
    · exact ih _ (skipExtend_lens _ _ hst (hl ix (List.mem_cons_self ix rest)))
        (fun j hj => hl j (List.mem_cons_of_mem ix hj))

theorem skipXLoop_no_interrupt (cellFn : Nat → Nat → Nat → Processed) (iy iz : Nat) :
    ∀ (l : List Nat) (st : SkipSt),
    skipXLoop (fun _ => false) cellFn iy iz st l =
      ⟨st.polls + l.length,
       st.images ++ l.flatMap (fun ix =>
         if (cellFn ix iy iz).images.isEmpty then [] else (cellFn ix iy iz).images),
       st.infotexts ++ l.flatMap (fun ix =>
         if (cellFn ix iy iz).images.isEmpty then [] else (cellFn ix iy iz).infotexts),
       st.allPrompts ++ l.flatMap (fun ix =>
         if (cellFn ix iy iz).images.isEmpty then [] else (cellFn ix iy iz).allPrompts),
       st.allSeeds ++ l.flatMap (fun ix =>
         if (cellFn ix iy iz).images.isEmpty then [] else (cellFn ix iy iz).allSeeds)⟩ := by
  intro l
  induction l with
  | nil => intro st; simp [skipXLoop]
  | cons ix rest ih =>
    intro st
    unfold skipXLoop
    simp only [if_neg (by simp : ¬ (false = true))]
    rw [ih]
    unfold skipExtend
    split
    · rename_i hemp
      simp [hemp, List.flatMap_cons]
      omega
    · rename_i hemp
      simp only [List.flatMap_cons, if_neg hemp]
      simp
      omega

theorem foldl_inv {α β : Type} (f : β → α → β) (P : β → Prop)
    (hf : ∀ b a, P b → P (f b a)) : ∀ (l : List α) (b : β), P b → P (l.foldl f b) := by
  intro l
  induction l with
  | nil => intro b hb; exact hb
  | cons a rest ih => intro b hb; exact ih _ (hf b a hb)

theorem skipGridRun_lens (intr : Nat → Bool) (cellFn : Nat → Nat → Nat → Processed)
    (nx ny nz : Nat)
    (hlen : ∀ ix iy iz, (cellFn ix iy iz).images.length = (cellFn ix iy iz).infotexts.length
      ∧ (cellFn ix iy iz).images.length = (cellFn ix iy iz).allPrompts.length
      ∧ (cellFn ix iy iz).images.length = (cellFn ix iy iz).allSeeds.length) :
    (skipGridRun intr cellFn nx ny nz).images.length
      = (skipGridRun intr cellFn nx ny nz).infotexts.length
    ∧ (skipGridRun intr cellFn nx ny nz).images.length
      = (skipGridRun intr cellFn nx ny nz).allPrompts.length
    ∧ (skipGridRun intr cellFn nx ny nz).images.length
      = (skipGridRun intr cellFn nx ny nz).allSeeds.length := by
  unfold skipGridRun
  exact foldl_inv _
    (fun st : SkipSt => st.images.length = st.infotexts.length
      ∧ st.images.length = st.allPrompts.length
      ∧ st.images.length = st.allSeeds.length)
    (fun b iz hb =>
      foldl_inv _
        (fun st : SkipSt => st.images.length = st.infotexts.length
          ∧ st.images.length = st.allPrompts.length
          ∧ st.images.length = st.allSeeds.length)
        (fun b2 iy hb2 =>
          skipXLoop_lens intr cellFn iy iz (List.range nx) b2 hb2
            (fun ix _ => hlen ix iy iz))
        (List.range ny) b hb)
    (List.range nz) _ (by simp)

theorem skipYFold_no_interrupt (cellFn : Nat → Nat → Nat → Processed)
    (nx iz : Nat) : ∀ (ly : List Nat) (st : SkipSt),
    ly.foldl (fun st iy =>
        skipXLoop (fun _ => false) cellFn iy iz st (List.range nx)) st =
      ⟨st.polls + ly.length * nx,
       st.images ++ ly.flatMap (fun iy => (List.range nx).flatMap (fun ix =>
         if (cellFn ix iy iz).images.isEmpty then [] else (cellFn ix iy iz).images)),
       st.infotexts ++ ly.flatMap (fun iy => (List.range nx).flatMap (fun ix =>
         if (cellFn ix iy iz).images.isEmpty then [] else (cellFn ix iy iz).infotexts)),
       st.allPrompts ++ ly.flatMap (fun iy => (List.range nx).flatMap (fun ix =>
         if (cellFn ix iy iz).images.isEmpty then [] else (cellFn ix iy iz).allPrompts)),
       st.allSeeds ++ ly.flatMap (fun iy => (List.range nx).flatMap (fun ix =>
         if (cellFn ix iy iz).images.isEmpty then [] else (cellFn ix iy iz).allSeeds))⟩ := by
  intro ly
  induction ly with
  | nil => intro st; simp
  | cons iy rest ih =>
    intro st
    simp only [List.foldl_cons]
    rw [skipXLoop_no_interrupt, ih]
    simp only [List.flatMap_cons, List.length_range, List.length_cons,
      SkipSt.mk.injEq, List.append_assoc]
    exact ⟨by ring, trivial, trivial, trivial, trivial⟩

theorem skipZFold_no_interrupt (cellFn : Nat → Nat → Nat → Processed)
    (nx ny : Nat) : ∀ (lz : List Nat) (st : SkipSt),
    lz.foldl (fun st iz =>
        (List.range ny).foldl (fun st iy =>
          skipXLoop (fun _ => false) cellFn iy iz st (List.range nx)) st) st =
      ⟨st.polls + lz.length * (ny * nx),
       st.images ++ lz.flatMap (fun iz => (List.range ny).flatMap (fun iy =>
         (List.range nx).flatMap (fun ix =>
           if (cellFn ix iy iz).images.isEmpty then [] else (cellFn ix iy iz).images))),
       st.infotexts ++ lz.flatMap (fun iz => (List.range ny).flatMap (fun iy =>
         (List.range nx).flatMap (fun ix =>
           if (cellFn ix iy iz).images.isEmpty then [] else (cellFn ix iy iz).infotexts))),
       st.allPrompts ++ lz.flatMap (fun iz => (List.range ny).flatMap (fun iy =>
         (List.range nx).flatMap (fun ix =>
           if (cellFn ix iy iz).images.isEmpty then [] else (cellFn ix iy iz).allPrompts))),
       st.allSeeds ++ lz.flatMap (fun iz => (List.range ny).flatMap (fun iy =>
         (List.range nx).flatMap (fun ix =>
           if (cellFn ix iy iz).images.isEmpty then [] else (cellFn ix iy iz).allSeeds)))⟩ := by
  intro lz
  induction lz with
  | nil => intro st; simp
  | cons iz rest ih =>
    intro st
    simp only [List.foldl_cons]
    rw [skipYFold_no_interrupt, ih]
    simp only [List.flatMap_cons, List.length_range, List.length_cons,
      SkipSt.mk.injEq, List.append_assoc]
    exact ⟨by ring, trivial, trivial, trivial, trivial⟩

theorem flatMap_congr_mem {α β : Type} {l : List α} {f g : α → List β}
    (h : ∀ a ∈ l, f a = g a) : l.flatMap f = l.flatMap g := by
  induction l with
  | nil => rfl
  | cons a rest ih =>
    simp only [List.flatMap_cons]
    rw [h a (List.mem_cons_self a rest), ih (fun x hx => h x (List.mem_cons_of_mem a hx))]

/-- C10: in skip-grid mode a cell whose renderer call yields an empty
image list (failure or interruption both produce one through `cell`)
contributes no entries at all to any of the four output lists, which
remain of equal length whenever each per-cell result has equal-length
lists — so the output is exactly the concatenation of the nonempty
cell results (z outer, y, x innermost) and may contain fewer entries
than there are cells. -/
theorem skip_grid_omits_empty_cells (intr : Nat → Bool)
    (cellFn : Nat → Nat → Nat → Processed) (nx ny nz : Nat)
    (hlen : ∀ ix iy iz,
      (cellFn ix iy iz).images.length = (cellFn ix iy iz).infotexts.length
      ∧ (cellFn ix iy iz).images.length = (cellFn ix iy iz).allPrompts.length
      ∧ (cellFn ix iy iz).images.length = (cellFn ix iy iz).allSeeds.length) :
    ((skipGridRun intr cellFn nx ny nz).images.length
        = (skipGridRun intr cellFn nx ny nz).infotexts.length
      ∧ (skipGridRun intr cellFn nx ny nz).images.length
        = (skipGridRun intr cellFn nx ny nz).allPrompts.length
      ∧ (skipGridRun intr cellFn nx ny nz).images.length
        = (skipGridRun intr cellFn nx ny nz).allSeeds.length)
    ∧ (skipGridRun (fun _ => false) cellFn nx ny nz).images
        = (List.range nz).flatMap (fun iz => (List.range ny).flatMap (fun iy =>
            (List.range nx).flatMap (fun ix => (cellFn ix iy iz).images)))
    ∧ (skipGridRun (fun _ => false) cellFn nx ny nz).infotexts
        = (List.range nz).flatMap (fun iz => (List.range ny).flatMap (fun iy =>
            (List.range nx).flatMap (fun ix => (cellFn ix iy iz).infotexts)))
    ∧ (skipGridRun (fun _ => false) cellFn nx ny nz).allPrompts
        = (List.range nz).flatMap (fun iz => (List.range ny).flatMap (fun iy =>
            (List.range nx).flatMap (fun ix => (cellFn ix iy iz).allPrompts)))
    ∧ (skipGridRun (fun _ => false) cellFn nx ny nz).allSeeds
        = (List.range nz).flatMap (fun iz => (List.range ny).flatMap (fun iy =>
            (List.range nx).flatMap (fun ix => (cellFn ix iy iz).allSeeds))) := by
  have hgate : ∀ iz iy ix,
      (if (cellFn ix iy iz).images.isEmpty then [] else (cellFn ix iy iz).images)
        = (cellFn ix iy iz).images
      ∧ (if (cellFn ix iy iz).images.isEmpty then [] else (cellFn ix iy iz).infotexts)
        = (cellFn ix iy iz).infotexts
      ∧ (if (cellFn ix iy iz).images.isEmpty then [] else (cellFn ix iy iz).allPrompts)
        = (cellFn ix iy iz).allPrompts
      ∧ (if (cellFn ix iy iz).images.isEmpty then [] else (cellFn ix iy iz).allSeeds)
        = (cellFn ix iy iz).allSeeds := by
    intro iz iy ix
    by_cases he : (cellFn ix iy iz).images.isEmpty
    · have h0 : (cellFn ix iy iz).images.length = 0 := by
        simpa [List.isEmpty_iff_length_eq_zero] using he
      obtain ⟨e1, e2, e3⟩ := hlen ix iy iz
      refine ⟨?_, ?_, ?_, ?_⟩ <;> rw [if_pos he] <;>
        [skip; (exact (List.length_eq_zero.mp (by omega)).symm)
         ; (exact (List.length_eq_zero.mp (by omega)).symm)
         ; (exact (List.length_eq_zero.mp (by omega)).symm)]
      exact (List.length_eq_zero.mp h0).symm
    · exact ⟨if_neg he, if_neg he, if_neg he, if_neg he⟩
  refine ⟨skipGridRun_lens intr cellFn nx ny nz hlen, ?_, ?_, ?_, ?_⟩ <;>
    (unfold skipGridRun
     rw [skipZFold_no_interrupt]
     simp only [List.nil_append]) <;>
    refine flatMap_congr_mem (fun iz _ => flatMap_congr_mem (fun iy _ =>
      flatMap_congr_mem (fun ix _ => ?_)))
  · exact (hgate iz iy ix).1
  · exact (hgate iz iy ix).2.1
  · exact (hgate iz iy ix).2.2.1
  · exact (hgate iz iy ix).2.2.2

/-- C10 witness: a 3x1x1 sweep whose x=0 cell returns no image
keeps the four lists aligned. -/
theorem skip_grid_omits_empty_cells_witness :
    (skipGridRun (fun _ => false) stairCellEx 3 1 1).images.length
      = (skipGridRun (fun _ => false) stairCellEx 3 1 1).infotexts.length
    ∧ (skipGridRun (fun _ => false) stairCellEx 3 1 1).images.length
      = (skipGridRun (fun _ => false) stairCellEx 3 1 1).allPrompts.length
    ∧ (skipGridRun (fun _ => false) stairCellEx 3 1 1).images.length
      = (skipGridRun (fun _ => false) stairCellEx 3 1 1).allSeeds.length :=
  (skip_grid_omits_empty_cells (fun _ => false) stairCellEx 3 1 1
    (fun ix iy iz => ⟨by simp [stairCellEx], by simp [stairCellEx], by simp [stairCellEx]⟩)).1


theorem add_mul_lt_mul (a b k m : Nat) (h1 : a < b) (h2 : k < m) :
    a + b * k < b * m := by
  calc a + b * k < b + b * k := by omega
  _ = b * (k + 1) := by ring
  _ ≤ b * m := Nat.mul_le_mul_left b (by omega)

theorem flatIdx_lt (nx ny nz ix iy iz : Nat) (hx : ix < nx) (hy : iy < ny)
    (hz : iz < nz) : flatIdx nx ny ix iy iz < nx * ny * nz := by
  have hrw : flatIdx nx ny ix iy iz = ix + nx * (iy + ny * iz) := by
    unfold flatIdx; ring
  have inner : iy + ny * iz < ny * nz := add_mul_lt_mul iy ny iz nz hy hz
  calc flatIdx nx ny ix iy iz = ix + nx * (iy + ny * iz) := hrw
  _ < nx * (ny * nz) := add_mul_lt_mul ix nx _ _ hx inner
  _ = nx * ny * nz := by ring

theorem flatIdx_decomp (nx ny nz ix iy iz : Nat) (hx : ix < nx) (hy : iy < ny) :
    flatIdx nx ny ix iy iz % nx = ix
    ∧ flatIdx nx ny ix iy iz / nx % ny = iy
    ∧ flatIdx nx ny ix iy iz / nx / ny = iz := by
  have hrw : flatIdx nx ny ix iy iz = ix + nx * (iy + ny * iz) := by
    unfold flatIdx; ring
  rw [hrw]
  have hnx : 0 < nx := by omega
  have hny : 0 < ny := by omega
  have hmod : (ix + nx * (iy + ny * iz)) % nx = ix := by
    rw [Nat.add_mul_mod_self_left, Nat.mod_eq_of_lt hx]
  have hdiv : (ix + nx * (iy + ny * iz)) / nx = iy + ny * iz := by
    rw [Nat.add_mul_div_left _ _ hnx, Nat.div_eq_of_lt hx]
    omega
  refine ⟨hmod, ?_, ?_⟩
  · rw [hdiv, Nat.add_mul_mod_self_left, Nat.mod_eq_of_lt hy]
  · rw [hdiv, Nat.add_mul_div_left _ _ hny, Nat.div_eq_of_lt hy]
    omega
theorem flatIdx_inj (nx ny nz : Nat) (c d : Nat × Nat × Nat)
    (hc : c.1 < nx ∧ c.2.1 < ny ∧ c.2.2 < nz)
    (hd : d.1 < nx ∧ d.2.1 < ny ∧ d.2.2 < nz)
    (he : flatIdx nx ny c.1 c.2.1 c.2.2 = flatIdx nx ny d.1 d.2.1 d.2.2) : c = d := by
  obtain ⟨e1, e2, e3⟩ := flatIdx_decomp nx ny nz c.1 c.2.1 c.2.2 hc.1 hc.2.1
  obtain ⟨f1, f2, f3⟩ := flatIdx_decomp nx ny nz d.1 d.2.1 d.2.2 hd.1 hd.2.1
  have : c.1 = d.1 := by rw [← e1, ← f1, he]
  have : c.2.1 = d.2.1 := by rw [← e2, ← f2, he]
  have : c.2.2 = d.2.2 := by rw [← e3, ← f3, he]
  ext <;> simp_all

theorem flatIdx_eq_zero (nx ny nz : Nat) (c : Nat × Nat × Nat)
    (hc : c.1 < nx ∧ c.2.1 < ny ∧ c.2.2 < nz)
    (he : flatIdx nx ny c.1 c.2.1 c.2.2 = 0) : c = (0, 0, 0) := by
  refine flatIdx_inj nx ny nz c (0, 0, 0) hc
    ⟨by show 0 < nx; omega, by show 0 < ny; omega, by show 0 < nz; omega⟩ ?_
  rw [show flatIdx nx ny 0 0 0 = 0 from by simp [flatIdx]]
  exact he

theorem tripleEnum_mem (n1 n2 n3 : Nat) (c : Nat × Nat × Nat) :
    c ∈ tripleEnum n1 n2 n3 ↔ c.1 < n1 ∧ c.2.1 < n2 ∧ c.2.2 < n3 := by
  obtain ⟨a, b, d⟩ := c
  simp [tripleEnum, List.mem_product]

theorem tripleEnum_nodup (n1 n2 n3 : Nat) : (tripleEnum n1 n2 n3).Nodup :=
  (List.nodup_range n1).product ((List.nodup_range n2).product (List.nodup_range n3))

theorem tripleEnum_head (n1 n2 n3 : Nat) (h1 : 0 < n1) (h2 : 0 < n2) (h3 : 0 < n3) :
    ∃ rest, tripleEnum n1 n2 n3 = (0, 0, 0) :: rest := by
  cases n1 with
  | zero => omega
  | succ k1 =>
    cases n2 with
    | zero => omega
    | succ k2 =>
      cases n3 with
      | zero => omega
      | succ k3 =>
        unfold tripleEnum
        rw [List.range_succ_eq_map k1, List.range_succ_eq_map k2,
          List.range_succ_eq_map k3]
        exact ⟨_, rfl⟩

theorem traversal_spec (f s : String) (h : (f, s) ∈ validOrders) (nx ny nz : Nat) :
    (∀ c : Nat × Nat × Nat,
      c ∈ traversal f s nx ny nz ↔ c.1 < nx ∧ c.2.1 < ny ∧ c.2.2 < nz)
    ∧ (traversal f s nx ny nz).Nodup
    ∧ (0 < nx → 0 < ny → 0 < nz →
        ∃ rest, traversal f s nx ny nz = (0, 0, 0) :: rest) := by
  simp only [validOrders, List.mem_cons, List.mem_singleton, Prod.mk.injEq,
    List.not_mem_nil, or_false] at h
  rcases h with ⟨rfl, rfl⟩ | ⟨rfl, rfl⟩ | ⟨rfl, rfl⟩ | ⟨rfl, rfl⟩ | ⟨rfl, rfl⟩ | ⟨rfl, rfl⟩
  · have ht : traversal "x" "y" nx ny nz = tripleEnum nx ny nz := rfl
    refine ⟨fun c => by rw [ht]; exact tripleEnum_mem nx ny nz c,
      by rw [ht]; exact tripleEnum_nodup nx ny nz, fun p1 p2 p3 => ?_⟩
    obtain ⟨rest, hr⟩ := tripleEnum_head nx ny nz p1 p2 p3
    exact ⟨rest, by rw [ht, hr]⟩
  · have ht : traversal "x" "z" nx ny nz
        = (tripleEnum nx nz ny).map (fun t => (t.1, t.2.2, t.2.1)) := rfl
    refine ⟨fun c => ?_, ?_, fun p1 p2 p3 => ?_⟩
    · obtain ⟨cx, cy, cz⟩ := c
      rw [ht]
      simp only [List.mem_map]
      constructor
      · rintro ⟨⟨a, b, d⟩, htm, he⟩
        have hb := (tripleEnum_mem nx nz ny (a, b, d)).mp htm
        simp only [Prod.mk.injEq] at he
        obtain ⟨rfl, rfl, rfl⟩ := he
        exact ⟨hb.1, hb.2.2, hb.2.1⟩
      · rintro ⟨h1, h2, h3⟩
        exact ⟨(cx, cz, cy), (tripleEnum_mem nx nz ny _).mpr ⟨h1, h3, h2⟩, rfl⟩
    · rw [ht]
      refine List.Nodup.map ?_ (tripleEnum_nodup nx nz ny)
      rintro ⟨a1, b1, d1⟩ ⟨a2, b2, d2⟩ he
      simp only [Prod.mk.injEq] at he ⊢
      tauto
    · obtain ⟨rest, hr⟩ := tripleEnum_head nx nz ny p1 p3 p2
      rw [ht, hr, List.map_cons]
      exact ⟨_, rfl⟩
  · have ht : traversal "y" "x" nx ny nz
        = (tripleEnum ny nx nz).map (fun t => (t.2.1, t.1, t.2.2)) := rfl
    refine ⟨fun c => ?_, ?_, fun p1 p2 p3 => ?_⟩
    · obtain ⟨cx, cy, cz⟩ := c
      rw [ht]
      simp only [List.mem_map]
      constructor
      · rintro ⟨⟨a, b, d⟩, htm, he⟩
        have hb := (tripleEnum_mem ny nx nz (a, b, d)).mp htm
        simp only [Prod.mk.injEq] at he
        obtain ⟨rfl, rfl, rfl⟩ := he
        exact ⟨hb.2.1, hb.1, hb.2.2⟩
      · rintro ⟨h1, h2, h3⟩
        exact ⟨(cy, cx, cz), (tripleEnum_mem ny nx nz _).mpr ⟨h2, h1, h3⟩, rfl⟩
    · rw [ht]
      refine List.Nodup.map ?_ (tripleEnum_nodup ny nx nz)
      rintro ⟨a1, b1, d1⟩ ⟨a2, b2, d2⟩ he
      simp only [Prod.mk.injEq] at he ⊢
      tauto
    · obtain ⟨rest, hr⟩ := tripleEnum_head ny nx nz p2 p1 p3
      rw [ht, hr, List.map_cons]
      exact ⟨_, rfl⟩
  · have ht : traversal "y" "z" nx ny nz
        = (tripleEnum ny nz nx).map (fun t => (t.2.2, t.1, t.2.1)) := rfl
    refine ⟨fun c => ?_, ?_, fun p1 p2 p3 => ?_⟩
    · obtain ⟨cx, cy, cz⟩ := c
      rw [ht]
      simp only [List.mem_map]
      constructor
      · rintro ⟨⟨a, b, d⟩, htm, he⟩
        have hb := (tripleEnum_mem ny nz nx (a, b, d)).mp htm
        simp only [Prod.mk.injEq] at he
        obtain ⟨rfl, rfl, rfl⟩ := he
        exact ⟨hb.2.2, hb.1, hb.2.1⟩
      · rintro ⟨h1, h2, h3⟩
        exact ⟨(cy, cz, cx), (tripleEnum_mem ny nz nx _).mpr ⟨h2, h3, h1⟩, rfl⟩
    · rw [ht]
      refine List.Nodup.map ?_ (tripleEnum_nodup ny nz nx)
      rintro ⟨a1, b1, d1⟩ ⟨a2, b2, d2⟩ he
      simp only [Prod.mk.injEq] at he ⊢
      tauto
    · obtain ⟨rest, hr⟩ := tripleEnum_head ny nz nx p2 p3 p1
      rw [ht, hr, List.map_cons]
      exact ⟨_, rfl⟩
  · have ht : traversal "z" "x" nx ny nz
        = (tripleEnum nz nx ny).map (fun t => (t.2.1, t.2.2, t.1)) := rfl
    refine ⟨fun c => ?_, ?_, fun p1 p2 p3 => ?_⟩
    · obtain ⟨cx, cy, cz⟩ := c
      rw [ht]
      simp only [List.mem_map]
      constructor
      · rintro ⟨⟨a, b, d⟩, htm, he⟩
        have hb := (tripleEnum_mem nz nx ny (a, b, d)).mp htm
        simp only [Prod.mk.injEq] at he
        obtain ⟨rfl, rfl, rfl⟩ := he
        exact ⟨hb.2.1, hb.2.2, hb.1⟩
      · rintro ⟨h1, h2, h3⟩
        exact ⟨(cz, cx, cy), (tripleEnum_mem nz nx ny _).mpr ⟨h3, h1, h2⟩, rfl⟩
    · rw [ht]
      refine List.Nodup.map ?_ (tripleEnum_nodup nz nx ny)
      rintro ⟨a1, b1, d1⟩ ⟨a2, b2, d2⟩ he
      simp only [Prod.mk.injEq] at he ⊢
      tauto
    · obtain ⟨rest, hr⟩ := tripleEnum_head nz nx ny p3 p1 p2
      rw [ht, hr, List.map_cons]
      exact ⟨_, rfl⟩
  · have ht : traversal "z" "y" nx ny nz
        = (tripleEnum nz ny nx).map (fun t => (t.2.2, t.2.1, t.1)) := rfl
    refine ⟨fun c => ?_, ?_, fun p1 p2 p3 => ?_⟩
    · obtain ⟨cx, cy, cz⟩ := c
      rw [ht]
      simp only [List.mem_map]
      constructor
      · rintro ⟨⟨a, b, d⟩, htm, he⟩
        have hb := (tripleEnum_mem nz ny nx (a, b, d)).mp htm
        simp only [Prod.mk.injEq] at he
        obtain ⟨rfl, rfl, rfl⟩ := he
        exact ⟨hb.2.2, hb.2.1, hb.1⟩
      · rintro ⟨h1, h2, h3⟩
        exact ⟨(cz, cy, cx), (tripleEnum_mem nz ny nx _).mpr ⟨h3, h2, h1⟩, rfl⟩
    · rw [ht]
      refine List.Nodup.map ?_ (tripleEnum_nodup nz ny nx)
      rintro ⟨a1, b1, d1⟩ ⟨a2, b2, d2⟩ he
      simp only [Prod.mk.injEq] at he ⊢
      tauto
    · obtain ⟨rest, hr⟩ := tripleEnum_head nz ny nx p3 p2 p1
      rw [ht, hr, List.map_cons]
      exact ⟨_, rfl⟩

theorem writeSlot_fields (ctx : GridCtx) (s : GridState) (c : Nat × Nat × Nat) :
    (writeSlot ctx s c).width = s.width
    ∧ (writeSlot ctx s c).height = s.height
    ∧ (writeSlot ctx s c).images.length = s.images.length
    ∧ (writeSlot ctx s c).allPrompts.length = s.allPrompts.length
    ∧ (writeSlot ctx s c).allSeeds.length = s.allSeeds.length
    ∧ (writeSlot ctx s c).infotexts.length = s.infotexts.length := by
  unfold writeSlot
  cases him : (ctx.cellAt c).images with
  | cons i0 rest => simp
  | nil => cases hs0 : s.images.getD 0 none <;> simp

theorem writeSlot_ne (ctx : GridCtx) (s : GridState) (c : Nat × Nat × Nat) (j : Nat)
    (hj : flatIdx ctx.xs.length ctx.ys.length c.1 c.2.1 c.2.2 ≠ j) :
    (writeSlot ctx s c).images[j]? = s.images[j]?
    ∧ (writeSlot ctx s c).allPrompts[j]? = s.allPrompts[j]?
    ∧ (writeSlot ctx s c).allSeeds[j]? = s.allSeeds[j]?
    ∧ (writeSlot ctx s c).infotexts[j]? = s.infotexts[j]? := by
  unfold writeSlot
  cases him : (ctx.cellAt c).images with
  | cons i0 rest => simp [List.getElem?_set_ne hj]
  | nil => cases hs0 : s.images.getD 0 none <;> simp [List.getElem?_set_ne hj]

theorem writeSlot_at_success (ctx : GridCtx) (s : GridState) (c : Nat × Nat × Nat)
    (i0 : Img) (rest : List Img) (him : (ctx.cellAt c).images = i0 :: rest)
    (h1 : flatIdx ctx.xs.length ctx.ys.length c.1 c.2.1 c.2.2 < s.images.length)
    (h2 : flatIdx ctx.xs.length ctx.ys.length c.1 c.2.1 c.2.2 < s.allPrompts.length)
    (h3 : flatIdx ctx.xs.length ctx.ys.length c.1 c.2.1 c.2.2 < s.allSeeds.length)
    (h4 : flatIdx ctx.xs.length ctx.ys.length c.1 c.2.1 c.2.2 < s.infotexts.length) :
    (writeSlot ctx s c).images[flatIdx ctx.xs.length ctx.ys.length c.1 c.2.1 c.2.2]?
      = some (some (if ctx.drawIndividualLabels then Img.labeled i0 (ctx.cellLabel c) else i0))
    ∧ (writeSlot ctx s c).allPrompts[flatIdx ctx.xs.length ctx.ys.length c.1 c.2.1 c.2.2]?
      = some (some (ctx.cellAt c).prompt)
    ∧ (writeSlot ctx s c).allSeeds[flatIdx ctx.xs.length ctx.ys.length c.1 c.2.1 c.2.2]?
      = some (some (ctx.cellAt c).seed)
    ∧ (writeSlot ctx s c).infotexts[flatIdx ctx.xs.length ctx.ys.length c.1 c.2.1 c.2.2]?
      = some (some ((ctx.cellAt c).infotexts.getD 0 "")) := by
  unfold writeSlot
  rw [him]
  simp only
  exact ⟨List.getElem?_set_self h1, List.getElem?_set_self h2,
    List.getElem?_set_self h3, List.getElem?_set_self h4⟩

theorem writeSlot_at_failure (ctx : GridCtx) (s : GridState) (c : Nat × Nat × Nat)
    (him : (ctx.cellAt c).images = [])
    (h1 : flatIdx ctx.xs.length ctx.ys.length c.1 c.2.1 c.2.2 < s.images.length) :
    (writeSlot ctx s c).images[flatIdx ctx.xs.length ctx.ys.length c.1 c.2.1 c.2.2]?
      = some (some (match s.images.getD 0 none with
          | some i0 => Img.blank i0.mode i0.sizeW i0.sizeH
          | none => Img.blank "P" s.width s.height))
    ∧ (writeSlot ctx s c).allPrompts[flatIdx ctx.xs.length ctx.ys.length c.1 c.2.1 c.2.2]?
      = s.allPrompts[flatIdx ctx.xs.length ctx.ys.length c.1 c.2.1 c.2.2]?
    ∧ (writeSlot ctx s c).allSeeds[flatIdx ctx.xs.length ctx.ys.length c.1 c.2.1 c.2.2]?
      = s.allSeeds[flatIdx ctx.xs.length ctx.ys.length c.1 c.2.1 c.2.2]?
    ∧ (writeSlot ctx s c).infotexts[flatIdx ctx.xs.length ctx.ys.length c.1 c.2.1 c.2.2]?
      = s.infotexts[flatIdx ctx.xs.length ctx.ys.length c.1 c.2.1 c.2.2]? := by
  unfold writeSlot
  rw [him]
  cases hs0 : s.images.getD 0 none with
  | some i0 => exact ⟨List.getElem?_set_self h1, rfl, rfl, rfl⟩
  | none => exact ⟨List.getElem?_set_self h1, rfl, rfl, rfl⟩

theorem processCell_some_foldl (ctx : GridCtx) :
    ∀ (l : List (Nat × Nat × Nat)) (s : GridState),
      l.foldl (processCell ctx) (some s) = some (l.foldl (writeSlot ctx) s) := by
  intro l
  induction l with
  | nil => intro s; rfl
  | cons c rest ih => intro s; exact ih (writeSlot ctx s c)

theorem foldWrite_spec (ctx : GridCtx) :
    ∀ (l : List (Nat × Nat × Nat)) (s : GridState),
    (∀ c ∈ l, c.1 < ctx.xs.length ∧ c.2.1 < ctx.ys.length ∧ c.2.2 < ctx.zs.length) →
    (∀ c ∈ l, flatIdx ctx.xs.length ctx.ys.length c.1 c.2.1 c.2.2 ≠ 0) →
    (l.map (fun c => flatIdx ctx.xs.length ctx.ys.length c.1 c.2.1 c.2.2)).Nodup →
    s.images.length = ctx.xs.length * ctx.ys.length * ctx.zs.length →
    s.allPrompts.length = ctx.xs.length * ctx.ys.length * ctx.zs.length →
    s.allSeeds.length = ctx.xs.length * ctx.ys.length * ctx.zs.length →
    s.infotexts.length = ctx.xs.length * ctx.ys.length * ctx.zs.length →
    (l.foldl (writeSlot ctx) s).width = s.width
    ∧ (l.foldl (writeSlot ctx) s).height = s.height
    ∧ (l.foldl (writeSlot ctx) s).images.length = s.images.length
    ∧ (l.foldl (writeSlot ctx) s).allPrompts.length = s.allPrompts.length
    ∧ (l.foldl (writeSlot ctx) s).allSeeds.length = s.allSeeds.length
    ∧ (l.foldl (writeSlot ctx) s).infotexts.length = s.infotexts.length
    ∧ (∀ j : Nat, (∀ c ∈ l, flatIdx ctx.xs.length ctx.ys.length c.1 c.2.1 c.2.2 ≠ j) →
        (l.foldl (writeSlot ctx) s).images[j]? = s.images[j]?
        ∧ (l.foldl (writeSlot ctx) s).allPrompts[j]? = s.allPrompts[j]?
        ∧ (l.foldl (writeSlot ctx) s).allSeeds[j]? = s.allSeeds[j]?
        ∧ (l.foldl (writeSlot ctx) s).infotexts[j]? = s.infotexts[j]?)
    ∧ (∀ c ∈ l,
        (∀ i0 rest, (ctx.cellAt c).images = i0 :: rest →
          (l.foldl (writeSlot ctx) s).images[flatIdx ctx.xs.length ctx.ys.length c.1 c.2.1 c.2.2]?
            = some (some (if ctx.drawIndividualLabels then Img.labeled i0 (ctx.cellLabel c) else i0))
          ∧ (l.foldl (writeSlot ctx) s).allPrompts[flatIdx ctx.xs.length ctx.ys.length c.1 c.2.1 c.2.2]?
            = some (some (ctx.cellAt c).prompt)
          ∧ (l.foldl (writeSlot ctx) s).allSeeds[flatIdx ctx.xs.length ctx.ys.length c.1 c.2.1 c.2.2]?
            = some (some (ctx.cellAt c).seed)
          ∧ (l.foldl (writeSlot ctx) s).infotexts[flatIdx ctx.xs.length ctx.ys.length c.1 c.2.1 c.2.2]?
            = some (some ((ctx.cellAt c).infotexts.getD 0 "")))
        ∧ ((ctx.cellAt c).images = [] →
          (l.foldl (writeSlot ctx) s).images[flatIdx ctx.xs.length ctx.ys.length c.1 c.2.1 c.2.2]?
            = some (some (match s.images.getD 0 none with
                | some i0 => Img.blank i0.mode i0.sizeW i0.sizeH
                | none => Img.blank "P" s.width s.height))
          ∧ (l.foldl (writeSlot ctx) s).allPrompts[flatIdx ctx.xs.length ctx.ys.length c.1 c.2.1 c.2.2]?
            = s.allPrompts[flatIdx ctx.xs.length ctx.ys.length c.1 c.2.1 c.2.2]?
          ∧ (l.foldl (writeSlot ctx) s).allSeeds[flatIdx ctx.xs.length ctx.ys.length c.1 c.2.1 c.2.2]?
            = s.allSeeds[flatIdx ctx.xs.length ctx.ys.length c.1 c.2.1 c.2.2]?
          ∧ (l.foldl (writeSlot ctx) s).infotexts[flatIdx ctx.xs.length ctx.ys.length c.1 c.2.1 c.2.2]?
            = s.infotexts[flatIdx ctx.xs.length ctx.ys.length c.1 c.2.1 c.2.2]?)) := by
  intro l
  induction l with
  | nil =>
    intro s _ _ _ _ _ _ _
    exact ⟨rfl, rfl, rfl, rfl, rfl, rfl, fun j _ => ⟨rfl, rfl, rfl, rfl⟩,
      fun c hc => absurd hc (List.not_mem_nil c)⟩
  | cons c0 tl ih =>
    intro s hb hnz hnd h1 h2 h3 h4
    simp only [List.foldl_cons]
    have hb0 := hb c0 (List.mem_cons_self c0 tl)
    have hnz0 := hnz c0 (List.mem_cons_self c0 tl)
    have hbt : ∀ c ∈ tl, c.1 < ctx.xs.length ∧ c.2.1 < ctx.ys.length ∧ c.2.2 < ctx.zs.length :=
      fun c hc => hb c (List.mem_cons_of_mem c0 hc)
    have hnzt : ∀ c ∈ tl, flatIdx ctx.xs.length ctx.ys.length c.1 c.2.1 c.2.2 ≠ 0 :=
      fun c hc => hnz c (List.mem_cons_of_mem c0 hc)
    have hndc : (flatIdx ctx.xs.length ctx.ys.length c0.1 c0.2.1 c0.2.2 ∉
        tl.map (fun c => flatIdx ctx.xs.length ctx.ys.length c.1 c.2.1 c.2.2))
        ∧ (tl.map (fun c => flatIdx ctx.xs.length ctx.ys.length c.1 c.2.1 c.2.2)).Nodup := by
      rw [List.map_cons] at hnd
      exact List.nodup_cons.mp hnd
    have hW := writeSlot_fields ctx s c0
    have ih' := ih (writeSlot ctx s c0) hbt hnzt hndc.2
      (hW.2.2.1.trans h1) (hW.2.2.2.1.trans h2) (hW.2.2.2.2.1.trans h3)
      (hW.2.2.2.2.2.trans h4)
    obtain ⟨iw, ihh, il1, il2, il3, il4, iun, iwr⟩ := ih'
    have idx0lt : flatIdx ctx.xs.length ctx.ys.length c0.1 c0.2.1 c0.2.2
        < ctx.xs.length * ctx.ys.length * ctx.zs.length :=
      flatIdx_lt _ _ _ _ _ _ hb0.1 hb0.2.1 hb0.2.2
    have hs0pres : (writeSlot ctx s c0).images.getD 0 none = s.images.getD 0 none := by
      rw [List.getD_eq_getElem?_getD, List.getD_eq_getElem?_getD,
        (writeSlot_ne ctx s c0 0 hnz0).1]
    refine ⟨iw.trans hW.1, ihh.trans hW.2.1, il1.trans hW.2.2.1,
      il2.trans hW.2.2.2.1, il3.trans hW.2.2.2.2.1, il4.trans hW.2.2.2.2.2,
      fun j hj => ?_, fun c hc => ?_⟩
    · have hjt : ∀ c ∈ tl, flatIdx ctx.xs.length ctx.ys.length c.1 c.2.1 c.2.2 ≠ j :=
        fun c hc => hj c (List.mem_cons_of_mem c0 hc)
      have hj0 : flatIdx ctx.xs.length ctx.ys.length c0.1 c0.2.1 c0.2.2 ≠ j :=
        hj c0 (List.mem_cons_self c0 tl)
      have hU := iun j hjt
      have hN := writeSlot_ne ctx s c0 j hj0
      exact ⟨hU.1.trans hN.1, hU.2.1.trans hN.2.1, hU.2.2.1.trans hN.2.2.1,
        hU.2.2.2.trans hN.2.2.2⟩
    · rcases List.mem_cons.mp hc with rfl | hct
      · -- c = c0: the head write survives the tail fold untouched
        have huntouched : ∀ c2 ∈ tl,
            flatIdx ctx.xs.length ctx.ys.length c2.1 c2.2.1 c2.2.2
              ≠ flatIdx ctx.xs.length ctx.ys.length c.1 c.2.1 c.2.2 := by
          intro c2 hc2 he
          exact hndc.1 (by
            rw [← he]
            exact List.mem_map_of_mem _ hc2)
        have hU := iun _ huntouched
        constructor
        · intro i0 rest him
          have hS := writeSlot_at_success ctx s c i0 rest him
            (by omega) (by omega) (by omega) (by omega)
          exact ⟨hU.1.trans hS.1, hU.2.1.trans hS.2.1, hU.2.2.1.trans hS.2.2.1,
            hU.2.2.2.trans hS.2.2.2⟩
        · intro him
          have hF := writeSlot_at_failure ctx s c him (by omega)
          exact ⟨hU.1.trans hF.1, hU.2.1.trans hF.2.1, hU.2.2.1.trans hF.2.2.1,
            hU.2.2.2.trans hF.2.2.2⟩
      · -- c in the tail: use the IH and move its references back to s
        have hc0c : flatIdx ctx.xs.length ctx.ys.length c0.1 c0.2.1 c0.2.2
            ≠ flatIdx ctx.xs.length ctx.ys.length c.1 c.2.1 c.2.2 := by
          intro he
          exact hndc.1 (by
            rw [he]
            exact List.mem_map_of_mem _ hct)
        have hN := writeSlot_ne ctx s c0 _ hc0c
        have hI := iwr c hct
        constructor
        · intro i0 rest him
          exact (hI.1 i0 rest him)
        · intro him
          have hIF := hI.2 him
          refine ⟨?_, hIF.2.1.trans hN.2.1, hIF.2.2.1.trans hN.2.2.1,
            hIF.2.2.2.trans hN.2.2.2⟩
          rw [hIF.1, hs0pres, hW.1, hW.2.1]

theorem unflat_spec (nx ny nz j : Nat) (hx : 0 < nx) (hy : 0 < ny)
    (hj : j < nx * ny * nz) :
    j % nx < nx ∧ j / nx % ny < ny ∧ j / nx / ny < nz
    ∧ flatIdx nx ny (j % nx) (j / nx % ny) (j / nx / ny) = j := by
  refine ⟨Nat.mod_lt j hx, Nat.mod_lt _ hy, ?_, ?_⟩
  · rw [Nat.div_div_eq_div_mul]
    rw [Nat.div_lt_iff_lt_mul (Nat.mul_pos hx hy)]
    calc j < nx * ny * nz := hj
    _ = nz * (nx * ny) := by ring
  · unfold flatIdx
    have e1 : j % nx + nx * (j / nx) = j := Nat.mod_add_div j nx
    have e2 : j / nx % ny + ny * (j / nx / ny) = j / nx := Nat.mod_add_div (j / nx) ny
    calc j % nx + j / nx % ny * nx + j / nx / ny * nx * ny
        = j % nx + nx * (j / nx % ny + ny * (j / nx / ny)) := by ring
    _ = j % nx + nx * (j / nx) := by rw [e2]
    _ = j := e1

theorem s0_placeholder (ctx : GridCtx)
    (hn : 0 < ctx.xs.length * ctx.ys.length * ctx.zs.length) :
    (match (writeSlot ctx
        (initGrid (ctx.cellAt (0, 0, 0)) (ctx.xs.length * ctx.ys.length * ctx.zs.length))
        (0, 0, 0)).images.getD 0 none with
      | some i0 => Img.blank i0.mode i0.sizeW i0.sizeH
      | none => Img.blank "P"
          (writeSlot ctx (initGrid (ctx.cellAt (0, 0, 0))
            (ctx.xs.length * ctx.ys.length * ctx.zs.length)) (0, 0, 0)).width
          (writeSlot ctx (initGrid (ctx.cellAt (0, 0, 0))
            (ctx.xs.length * ctx.ys.length * ctx.zs.length)) (0, 0, 0)).height)
      = Img.blank (placeholderSpec ctx).1 (placeholderSpec ctx).2.1 (placeholderSpec ctx).2.2 := by
  have hidx : flatIdx ctx.xs.length ctx.ys.length 0 0 0 = 0 := by simp [flatIdx]
  unfold writeSlot placeholderSpec
  cases him : (ctx.cellAt (0, 0, 0)).images with
  | cons i0 r =>
    simp only [initGrid, List.getD_eq_getElem?_getD, hidx]
    rw [List.getElem?_set_self (by simp [hn])]
    cases hl : ctx.drawIndividualLabels <;> simp [Img.mode, Img.sizeW, Img.sizeH]
  | nil =>
    simp only [initGrid, List.getD_eq_getElem?_getD, hidx, List.getElem?_replicate,
      if_pos hn, Option.getD_some]
    rw [List.getElem?_set_self (by simp [hn])]
    rfl

theorem s0_meta_none (ctx : GridCtx) (idx : Nat)
    (hlt : idx < ctx.xs.length * ctx.ys.length * ctx.zs.length) :
    (writeSlot ctx (initGrid (ctx.cellAt (0, 0, 0))
        (ctx.xs.length * ctx.ys.length * ctx.zs.length)) (0, 0, 0)).allPrompts[idx]?
        = some none
    ∧ (writeSlot ctx (initGrid (ctx.cellAt (0, 0, 0))
        (ctx.xs.length * ctx.ys.length * ctx.zs.length)) (0, 0, 0)).allSeeds[idx]?
        = some none
    ∧ (writeSlot ctx (initGrid (ctx.cellAt (0, 0, 0))
        (ctx.xs.length * ctx.ys.length * ctx.zs.length)) (0, 0, 0)).infotexts[idx]?
        = some none
    ∨ ((ctx.cellAt (0, 0, 0)).images ≠ [] ∧ idx = 0) := by
  by_cases hcase : (ctx.cellAt (0, 0, 0)).images ≠ [] ∧ idx = 0
  · exact Or.inr hcase
  · left
    have hidx : flatIdx ctx.xs.length ctx.ys.length 0 0 0 = 0 := by simp [flatIdx]
    unfold writeSlot
    cases him : (ctx.cellAt (0, 0, 0)).images with
    | cons i0 r =>
      have hne : idx ≠ 0 := by
        intro h0
        exact hcase ⟨by rw [him]; simp, h0⟩
      simp only [initGrid, hidx]
      rw [List.getElem?_set_ne (fun h => hne h.symm),
        List.getElem?_set_ne (fun h => hne h.symm),
        List.getElem?_set_ne (fun h => hne h.symm)]
      simp [List.getElem?_replicate, hlt]
    | nil =>
      cases hs0 : (initGrid (ctx.cellAt (0, 0, 0))
          (ctx.xs.length * ctx.ys.length * ctx.zs.length)).images.getD 0 none <;>
        simp [initGrid, List.getElem?_replicate, hlt]

theorem runCells_spec (ctx : GridCtx) (f s : String) (hv : (f, s) ∈ validOrders)
    (hx : ctx.xs ≠ []) (hy : ctx.ys ≠ []) (hz : ctx.zs ≠ []) :
    ∃ st, runCells ctx f s = some st
    ∧ st.width = (ctx.cellAt (0, 0, 0)).width
    ∧ st.height = (ctx.cellAt (0, 0, 0)).height
    ∧ st.images.length = ctx.xs.length * ctx.ys.length * ctx.zs.length
    ∧ st.allPrompts.length = ctx.xs.length * ctx.ys.length * ctx.zs.length
    ∧ st.allSeeds.length = ctx.xs.length * ctx.ys.length * ctx.zs.length
    ∧ st.infotexts.length = ctx.xs.length * ctx.ys.length * ctx.zs.length
    ∧ (∀ c : Nat × Nat × Nat,
        c.1 < ctx.xs.length → c.2.1 < ctx.ys.length → c.2.2 < ctx.zs.length →
        (∀ i0 rest, (ctx.cellAt c).images = i0 :: rest →
          st.images[flatIdx ctx.xs.length ctx.ys.length c.1 c.2.1 c.2.2]?
            = some (some (if ctx.drawIndividualLabels then Img.labeled i0 (ctx.cellLabel c) else i0))
          ∧ st.allPrompts[flatIdx ctx.xs.length ctx.ys.length c.1 c.2.1 c.2.2]?
            = some (some (ctx.cellAt c).prompt)
          ∧ st.allSeeds[flatIdx ctx.xs.length ctx.ys.length c.1 c.2.1 c.2.2]?
            = some (some (ctx.cellAt c).seed)
          ∧ st.infotexts[flatIdx ctx.xs.length ctx.ys.length c.1 c.2.1 c.2.2]?
            = some (some ((ctx.cellAt c).infotexts.getD 0 "")))
        ∧ ((ctx.cellAt c).images = [] →
          st.images[flatIdx ctx.xs.length ctx.ys.length c.1 c.2.1 c.2.2]?
            = some (some (Img.blank (placeholderSpec ctx).1
                (placeholderSpec ctx).2.1 (placeholderSpec ctx).2.2))
          ∧ st.allPrompts[flatIdx ctx.xs.length ctx.ys.length c.1 c.2.1 c.2.2]? = some none
          ∧ st.allSeeds[flatIdx ctx.xs.length ctx.ys.length c.1 c.2.1 c.2.2]? = some none
          ∧ st.infotexts[flatIdx ctx.xs.length ctx.ys.length c.1 c.2.1 c.2.2]? = some none)) := by
  have hxp : 0 < ctx.xs.length := List.length_pos.mpr hx
  have hyp : 0 < ctx.ys.length := List.length_pos.mpr hy
  have hzp : 0 < ctx.zs.length := List.length_pos.mpr hz
  have hn : 0 < ctx.xs.length * ctx.ys.length * ctx.zs.length :=
    Nat.mul_pos (Nat.mul_pos hxp hyp) hzp
  obtain ⟨hmem, hnodup, hhead⟩ := traversal_spec f s hv ctx.xs.length ctx.ys.length ctx.zs.length
  obtain ⟨rest, hr⟩ := hhead hxp hyp hzp
  have hrunEq : runCells ctx f s
      = some (rest.foldl (writeSlot ctx)
          (writeSlot ctx (initGrid (ctx.cellAt (0, 0, 0))
            (ctx.xs.length * ctx.ys.length * ctx.zs.length)) (0, 0, 0))) := by
    unfold runCells
    rw [hr, List.foldl_cons]
    exact processCell_some_foldl ctx rest _
  have hnodup' : ((0, 0, 0) :: rest).Nodup := hr ▸ hnodup
  have hnotin : (0, 0, 0) ∉ rest := (List.nodup_cons.mp hnodup').1
  have hrestmem : ∀ c ∈ rest,
      c.1 < ctx.xs.length ∧ c.2.1 < ctx.ys.length ∧ c.2.2 < ctx.zs.length := by
    intro c hc
    exact (hmem c).mp (by rw [hr]; exact List.mem_cons_of_mem _ hc)
  have hrestnz : ∀ c ∈ rest, flatIdx ctx.xs.length ctx.ys.length c.1 c.2.1 c.2.2 ≠ 0 := by
    intro c hc h0
    exact hnotin ((flatIdx_eq_zero _ _ ctx.zs.length c (hrestmem c hc) h0) ▸ hc)
  have hmapnodup : (rest.map (fun c =>
      flatIdx ctx.xs.length ctx.ys.length c.1 c.2.1 c.2.2)).Nodup := by
    refine List.Nodup.map_on ?_ (List.nodup_cons.mp hnodup').2
    intro a ha b hb he
    exact flatIdx_inj _ _ ctx.zs.length a b (hrestmem a ha) (hrestmem b hb) he
  have hW0 := writeSlot_fields ctx
    (initGrid (ctx.cellAt (0, 0, 0)) (ctx.xs.length * ctx.ys.length * ctx.zs.length)) (0, 0, 0)
  have hlen1 : (writeSlot ctx (initGrid (ctx.cellAt (0, 0, 0))
      (ctx.xs.length * ctx.ys.length * ctx.zs.length)) (0, 0, 0)).images.length
      = ctx.xs.length * ctx.ys.length * ctx.zs.length := by
    rw [hW0.2.2.1]; simp [initGrid]
  have hlen2 : (writeSlot ctx (initGrid (ctx.cellAt (0, 0, 0))
      (ctx.xs.length * ctx.ys.length * ctx.zs.length)) (0, 0, 0)).allPrompts.length
      = ctx.xs.length * ctx.ys.length * ctx.zs.length := by
    rw [hW0.2.2.2.1]; simp [initGrid]
  have hlen3 : (writeSlot ctx (initGrid (ctx.cellAt (0, 0, 0))
      (ctx.xs.length * ctx.ys.length * ctx.zs.length)) (0, 0, 0)).allSeeds.length
      = ctx.xs.length * ctx.ys.length * ctx.zs.length := by
    rw [hW0.2.2.2.2.1]; simp [initGrid]
  have hlen4 : (writeSlot ctx (initGrid (ctx.cellAt (0, 0, 0))
      (ctx.xs.length * ctx.ys.length * ctx.zs.length)) (0, 0, 0)).infotexts.length
      = ctx.xs.length * ctx.ys.length * ctx.zs.length := by
    rw [hW0.2.2.2.2.2]; simp [initGrid]
  obtain ⟨fw, fh, fl1, fl2, fl3, fl4, fun_, fwr⟩ :=
    foldWrite_spec ctx rest _ hrestmem hrestnz hmapnodup hlen1 hlen2 hlen3 hlen4
  refine ⟨_, hrunEq, ?_, ?_, ?_, ?_, ?_, ?_, ?_⟩
  · rw [fw, hW0.1]; rfl
  · rw [fh, hW0.2.1]; rfl
  · rw [fl1, hlen1]
  · rw [fl2, hlen2]
  · rw [fl3, hlen3]
  · rw [fl4, hlen4]
  · intro c hc1 hc2 hc3
    have hcmem : c ∈ (0, 0, 0) :: rest := by
      rw [← hr]; exact (hmem c).mpr ⟨hc1, hc2, hc3⟩
    have hidxlt : flatIdx ctx.xs.length ctx.ys.length c.1 c.2.1 c.2.2
        < ctx.xs.length * ctx.ys.length * ctx.zs.length :=
      flatIdx_lt _ _ _ _ _ _ hc1 hc2 hc3
    rcases List.mem_cons.mp hcmem with hceq | hcrest
    · -- c is the very first cell (0, 0, 0)
      have hzero : flatIdx ctx.xs.length ctx.ys.length c.1 c.2.1 c.2.2 = 0 := by
        rw [hceq]; simp [flatIdx]
      have hU := fun_ (flatIdx ctx.xs.length ctx.ys.length c.1 c.2.1 c.2.2)
        (fun c2 hc2m => by rw [hzero]; exact hrestnz c2 hc2m)
      constructor
      · intro i0 r him
        have hS := writeSlot_at_success ctx
          (initGrid (ctx.cellAt (0, 0, 0)) (ctx.xs.length * ctx.ys.length * ctx.zs.length))
          c i0 r him (by simpa [initGrid] using hidxlt) (by simpa [initGrid] using hidxlt)
          (by simpa [initGrid] using hidxlt) (by simpa [initGrid] using hidxlt)
        rw [hceq] at him hS hU ⊢
        exact ⟨hU.1.trans hS.1, hU.2.1.trans hS.2.1, hU.2.2.1.trans hS.2.2.1,
          hU.2.2.2.trans hS.2.2.2⟩
      · intro him
        rw [hceq] at him hU ⊢
        have hF := writeSlot_at_failure ctx
          (initGrid (ctx.cellAt (0, 0, 0)) (ctx.xs.length * ctx.ys.length * ctx.zs.length))
          (0, 0, 0) him (by simpa [initGrid, flatIdx] using hn)
        have hg : (initGrid (ctx.cellAt (0, 0, 0))
            (ctx.xs.length * ctx.ys.length * ctx.zs.length)).images.getD 0 none = none := by
          simp [initGrid, List.getD_eq_getElem?_getD, List.getElem?_replicate, hn]
        rw [hg] at hF
        refine ⟨?_, ?_, ?_, ?_⟩
        · rw [hU.1, hF.1]
          unfold placeholderSpec
          rw [him]
          rfl
        · rw [hU.2.1, hF.2.1]
          simp [initGrid, List.getElem?_replicate, hn, flatIdx]
        · rw [hU.2.2.1, hF.2.2.1]
          simp [initGrid, List.getElem?_replicate, hn, flatIdx]
        · rw [hU.2.2.2, hF.2.2.2]
          simp [initGrid, List.getElem?_replicate, hn, flatIdx]
    · -- c was handled inside the tail fold
      have hI := fwr c hcrest
      constructor
      · intro i0 r him
        exact hI.1 i0 r him
      · intro him
        have hIF := hI.2 him
        have hMeta := s0_meta_none ctx
          (flatIdx ctx.xs.length ctx.ys.length c.1 c.2.1 c.2.2) hidxlt
        have hne0 := hrestnz c hcrest
        rcases hMeta with ⟨m1, m2, m3⟩ | ⟨-, habs⟩
        · refine ⟨?_, hIF.2.1.trans m1, hIF.2.2.1.trans m2, hIF.2.2.2.trans m3⟩
          rw [hIF.1]
          exact congrArg _ (congrArg _ (s0_placeholder ctx hn))
        · exact absurd habs hne0

/-- C9: for any two valid planner nesting orders (first/second processed axis)
and the same deterministic per-cell renderer, `draw_xyz_grid` produces an
identical composed output; moreover each successful cell result is stored at
flat index `ix + iy*nx + iz*nx*ny` determined by its (x,y,z) coordinates, so
traversal order never changes final grid geometry or the flat result order. -/
theorem compose_order_independent (ctx : GridCtx) (f1 s1 f2 s2 : String)
    (h1 : (f1, s1) ∈ validOrders) (h2 : (f2, s2) ∈ validOrders)
    (hx : ctx.xs ≠ []) (hy : ctx.ys ≠ []) (hz : ctx.zs ≠ []) :
    drawXYZGrid ctx f1 s1 = drawXYZGrid ctx f2 s2
    ∧ (∀ st, runCells ctx f1 s1 = some st →
        ∀ c : Nat × Nat × Nat, c.1 < ctx.xs.length → c.2.1 < ctx.ys.length →
          c.2.2 < ctx.zs.length → ∀ i0 rest, (ctx.cellAt c).images = i0 :: rest →
          st.images[flatIdx ctx.xs.length ctx.ys.length c.1 c.2.1 c.2.2]?
            = some (some (if ctx.drawIndividualLabels then Img.labeled i0 (ctx.cellLabel c)
                else i0))) := by
  have hxp : 0 < ctx.xs.length := List.length_pos.mpr hx
  have hyp : 0 < ctx.ys.length := List.length_pos.mpr hy
  obtain ⟨st1, hrun1, w1, hh1, la1, lb1, lc1, ld1, cell1⟩ :=
    runCells_spec ctx f1 s1 h1 hx hy hz
  obtain ⟨st2, hrun2, w2, hh2, la2, lb2, lc2, ld2, cell2⟩ :=
    runCells_spec ctx f2 s2 h2 hx hy hz
  have hsteq : st1 = st2 := by
    have key : ∀ (j : Nat), j < ctx.xs.length * ctx.ys.length * ctx.zs.length →
        (st1.images[j]? = st2.images[j]? ∧ st1.allPrompts[j]? = st2.allPrompts[j]?
          ∧ st1.allSeeds[j]? = st2.allSeeds[j]? ∧ st1.infotexts[j]? = st2.infotexts[j]?) := by
      intro j hj
      obtain ⟨b1, b2, b3, hfl⟩ := unflat_spec ctx.xs.length ctx.ys.length ctx.zs.length j
        hxp hyp hj
      have hc1 := cell1 (j % ctx.xs.length, j / ctx.xs.length % ctx.ys.length,
        j / ctx.xs.length / ctx.ys.length) b1 b2 b3
      have hc2 := cell2 (j % ctx.xs.length, j / ctx.xs.length % ctx.ys.length,
        j / ctx.xs.length / ctx.ys.length) b1 b2 b3
      rw [hfl] at hc1 hc2
      cases him : (ctx.cellAt (j % ctx.xs.length, j / ctx.xs.length % ctx.ys.length,
          j / ctx.xs.length / ctx.ys.length)).images with
      | cons i0 r =>
        have e1 := hc1.1 i0 r him
        have e2 := hc2.1 i0 r him
        exact ⟨e1.1.trans e2.1.symm, e1.2.1.trans e2.2.1.symm,
          e1.2.2.1.trans e2.2.2.1.symm, e1.2.2.2.trans e2.2.2.2.symm⟩
      | nil =>
        have e1 := hc1.2 him
        have e2 := hc2.2 him
        exact ⟨e1.1.trans e2.1.symm, e1.2.1.trans e2.2.1.symm,
          e1.2.2.1.trans e2.2.2.1.symm, e1.2.2.2.trans e2.2.2.2.symm⟩
    have himg : st1.images = st2.images := by
      refine List.ext_getElem? (fun j => ?_)
      by_cases hj : j < ctx.xs.length * ctx.ys.length * ctx.zs.length
      · exact (key j hj).1
      · rw [List.getElem?_eq_none (by omega), List.getElem?_eq_none (by omega)]
    have hpr : st1.allPrompts = st2.allPrompts := by
      refine List.ext_getElem? (fun j => ?_)
      by_cases hj : j < ctx.xs.length * ctx.ys.length * ctx.zs.length
      · exact (key j hj).2.1
      · rw [List.getElem?_eq_none (by omega), List.getElem?_eq_none (by omega)]
    have hsd : st1.allSeeds = st2.allSeeds := by
      refine List.ext_getElem? (fun j => ?_)
      by_cases hj : j < ctx.xs.length * ctx.ys.length * ctx.zs.length
      · exact (key j hj).2.2.1
      · rw [List.getElem?_eq_none (by omega), List.getElem?_eq_none (by omega)]
    have hin : st1.infotexts = st2.infotexts := by
      refine List.ext_getElem? (fun j => ?_)
      by_cases hj : j < ctx.xs.length * ctx.ys.length * ctx.zs.length
      · exact (key j hj).2.2.2
      · rw [List.getElem?_eq_none (by omega), List.getElem?_eq_none (by omega)]
    cases st1
    cases st2
    simp_all
  refine ⟨?_, ?_⟩
  · unfold drawXYZGrid
    rw [hrun1, hrun2, hsteq]
  · intro st hst c b1 b2 b3 i0 r him
    rw [hst] at hrun1
    cases hrun1
    exact ((cell1 c b1 b2 b3).1 i0 r him).1

theorem compose_order_independent_witness :
    drawXYZGrid cexCtx7 "x" "y" = drawXYZGrid cexCtx7 "z" "y" :=
  (compose_order_independent cexCtx7 "x" "y" "z" "y" (by decide) (by decide)
    (by decide) (by decide) (by decide)).1

/-- C7 (amended): a renderer exception or the interruption flag never
propagates out of `cell`: the failed call is mapped to an empty `Processed`
carrying the request width/height/seed. Every bounded cell of the grid still
receives an image slot, and a failed cell is filled with a solid-mode blank
placeholder whose mode and size come from `placeholderSpec` -- the image in
flat slot 0 if one is present there, else the request width/height -- NOT
from the first successfully produced sibling as the spec states. -/
theorem cell_failure_recovered (ctx : GridCtx) (f s : String)
    (hv : (f, s) ∈ validOrders) (hx : ctx.xs ≠ []) (hy : ctx.ys ≠ []) (hz : ctx.zs ≠ [])
    (interrupted drawLabels : Bool) (label : String) (pW pH : Nat) (pSeed : Int)
    (err : String) :
    cellRun interrupted drawLabels label pW pH pSeed (.error err)
      = emptyProcessed pW pH pSeed
    ∧ (∃ st, runCells ctx f s = some st
        ∧ (∀ c : Nat × Nat × Nat,
            c.1 < ctx.xs.length → c.2.1 < ctx.ys.length → c.2.2 < ctx.zs.length →
            ∃ img : Img, st.images[flatIdx ctx.xs.length ctx.ys.length c.1 c.2.1 c.2.2]?
              = some (some img))
        ∧ (∀ c : Nat × Nat × Nat,
            c.1 < ctx.xs.length → c.2.1 < ctx.ys.length → c.2.2 < ctx.zs.length →
            (ctx.cellAt c).images = [] →
            st.images[flatIdx ctx.xs.length ctx.ys.length c.1 c.2.1 c.2.2]?
              = some (some (Img.blank (placeholderSpec ctx).1
                  (placeholderSpec ctx).2.1 (placeholderSpec ctx).2.2)))) := by
  constructor
  · unfold cellRun
    cases interrupted <;> rfl
  · obtain ⟨st, hrun, w1, hh1, l1, l2, l3, l4, hcell⟩ := runCells_spec ctx f s hv hx hy hz
    refine ⟨st, hrun, ?_, ?_⟩
    · intro c b1 b2 b3
      cases him : (ctx.cellAt c).images with
      | cons i0 r =>
        exact ⟨_, ((hcell c b1 b2 b3).1 i0 r him).1⟩
      | nil =>
        exact ⟨_, ((hcell c b1 b2 b3).2 him).1⟩
    · intro c b1 b2 b3 him
      exact ((hcell c b1 b2 b3).2 him).1

theorem cell_failure_recovered_witness :
    cellRun false false "" 64 64 7 (.error "boom") = emptyProcessed 64 64 7
    ∧ (∃ st, runCells cexCtx7 "z" "y" = some st
        ∧ (∀ c : Nat × Nat × Nat,
            c.1 < cexCtx7.xs.length → c.2.1 < cexCtx7.ys.length → c.2.2 < cexCtx7.zs.length →
            ∃ img : Img, st.images[flatIdx cexCtx7.xs.length cexCtx7.ys.length c.1 c.2.1 c.2.2]?
              = some (some img))
        ∧ (∀ c : Nat × Nat × Nat,
            c.1 < cexCtx7.xs.length → c.2.1 < cexCtx7.ys.length → c.2.2 < cexCtx7.zs.length →
            (cexCtx7.cellAt c).images = [] →
            st.images[flatIdx cexCtx7.xs.length cexCtx7.ys.length c.1 c.2.1 c.2.2]?
              = some (some (Img.blank (placeholderSpec cexCtx7).1
                  (placeholderSpec cexCtx7).2.1 (placeholderSpec cexCtx7).2.2)))) :=
  cell_failure_recovered cexCtx7 "z" "y" (by decide) (by decide) (by decide) (by decide)
    false false "" 64 64 7 "boom"

/-- C7 counterexample: in a 3x1x1 grid with request size 64x64 where only the
middle cell succeeds (producing a 100x100 image), the failing third cell is
filled with a 64x64 blank (mode/size of slot 0, itself a request-size blank),
not a 100x100 blank matching the successful sibling; 64 differs from 100. -/
theorem placeholder_size_cex :
    (runCells cexCtx7 "z" "y").map (fun st => st.images.getD 2 none)
      = some (some (Img.blank "P" 64 64))
    ∧ (runCells cexCtx7 "z" "y").map (fun st => st.images.getD 1 none)
      = some (some (Img.pic "RGB" 100 100 1))
    ∧ (mixCellEx (.i 0) (.i 0) (.i 0) 1 0 0).images = [Img.pic "RGB" 100 100 1]
    ∧ (mixCellEx (.i 0) (.i 0) (.i 0) 2 0 0).images = []
    ∧ (64 : Nat) ≠ 100 := by
  exact ⟨rfl, rfl, rfl, rfl, by decide⟩

theorem sliceStep_len (ctx : GridCtx) (s : GridState) (i : Nat)
    (h1 : i ≤ s.images.length) (h2 : i ≤ s.allPrompts.length)
    (h3 : i ≤ s.allSeeds.length) (h4 : i ≤ s.infotexts.length) :
    (sliceStep ctx s i).images.length = s.images.length + 1
    ∧ (sliceStep ctx s i).allPrompts.length = s.allPrompts.length + 1
    ∧ (sliceStep ctx s i).allSeeds.length = s.allSeeds.length + 1
    ∧ (sliceStep ctx s i).infotexts.length = s.infotexts.length + 1 := by
  refine ⟨?_, ?_, ?_, ?_⟩ <;>
    simp [sliceStep, List.length_insertIdx _ _ h1, List.length_insertIdx _ _ h2,
      List.length_insertIdx _ _ h3, List.length_insertIdx _ _ h4]

theorem sliceFold_len (ctx : GridCtx) : ∀ (n k : Nat) (s : GridState),
    k ≤ s.images.length → k ≤ s.allPrompts.length → k ≤ s.allSeeds.length →
    k ≤ s.infotexts.length →
    ((List.range' k n).foldl (sliceStep ctx) s).images.length = s.images.length + n
    ∧ ((List.range' k n).foldl (sliceStep ctx) s).allPrompts.length
        = s.allPrompts.length + n
    ∧ ((List.range' k n).foldl (sliceStep ctx) s).allSeeds.length
        = s.allSeeds.length + n
    ∧ ((List.range' k n).foldl (sliceStep ctx) s).infotexts.length
        = s.infotexts.length + n := by
  intro n
  induction n with
  | zero => intro k s _ _ _ _; simp [List.range']
  | succ m ih =>
    intro k s h1 h2 h3 h4
    rw [List.range'_succ]
    simp only [List.foldl_cons]
    obtain ⟨e1, e2, e3, e4⟩ := sliceStep_len ctx s k h1 h2 h3 h4
    obtain ⟨f1, f2, f3, f4⟩ := ih (k + 1) (sliceStep ctx s k)
      (by omega) (by omega) (by omega) (by omega)
    exact ⟨by omega, by omega, by omega, by omega⟩

theorem sliceLoop_len (ctx : GridCtx) (s : GridState) :
    (sliceLoop ctx s).images.length = s.images.length + ctx.zs.length
    ∧ (sliceLoop ctx s).allPrompts.length = s.allPrompts.length + ctx.zs.length
    ∧ (sliceLoop ctx s).allSeeds.length = s.allSeeds.length + ctx.zs.length
    ∧ (sliceLoop ctx s).infotexts.length = s.infotexts.length + ctx.zs.length := by
  unfold sliceLoop
  rw [List.range_eq_range']
  exact sliceFold_len ctx ctx.zs.length 0 s (by omega) (by omega) (by omega) (by omega)

theorem topStep_len (ctx : GridCtx) (s : GridState) :
    (topStep ctx s).images.length = s.images.length + 1
    ∧ (topStep ctx s).allPrompts.length = s.allPrompts.length
    ∧ (topStep ctx s).allSeeds.length = s.allSeeds.length
    ∧ (topStep ctx s).infotexts.length = s.infotexts.length + 1 := by
  refine ⟨?_, ?_, ?_, ?_⟩ <;> simp [topStep]

/-- C1 (amended): the four metadata lists stay equal in length through the
cell phase (all four have nx*ny*nz entries) and through the slice-grid
insertions (each of the z_count iterations inserts into all four lists); but
the final top-grid insertion appends only to images and infotexts, so the
returned non-degenerate result has len(images) = len(infotexts)
= len(all_prompts) + 1 = len(all_seeds) + 1. -/
theorem metadata_length_invariant (ctx : GridCtx) (f s : String)
    (hv : (f, s) ∈ validOrders) (hx : ctx.xs ≠ []) (hy : ctx.ys ≠ [])
    (hz : ctx.zs ≠ []) :
    ∃ st, runCells ctx f s = some st
      ∧ (st.images.length = ctx.xs.length * ctx.ys.length * ctx.zs.length
         ∧ st.allPrompts.length = st.images.length
         ∧ st.allSeeds.length = st.images.length
         ∧ st.infotexts.length = st.images.length)
      ∧ ((sliceLoop ctx st).images.length = st.images.length + ctx.zs.length
         ∧ (sliceLoop ctx st).allPrompts.length = (sliceLoop ctx st).images.length
         ∧ (sliceLoop ctx st).allSeeds.length = (sliceLoop ctx st).images.length
         ∧ (sliceLoop ctx st).infotexts.length = (sliceLoop ctx st).images.length)
      ∧ (¬ st.images.all (fun o => o.isNone) →
          (drawXYZGrid ctx f s).images.length
            = ctx.xs.length * ctx.ys.length * ctx.zs.length + ctx.zs.length + 1
          ∧ (drawXYZGrid ctx f s).infotexts.length
              = (drawXYZGrid ctx f s).images.length
          ∧ (drawXYZGrid ctx f s).allPrompts.length
              = ctx.xs.length * ctx.ys.length * ctx.zs.length + ctx.zs.length
          ∧ (drawXYZGrid ctx f s).allSeeds.length
              = (drawXYZGrid ctx f s).allPrompts.length) := by
  obtain ⟨st, hrun, w1, hh1, l1, l2, l3, l4, hcell⟩ := runCells_spec ctx f s hv hx hy hz
  obtain ⟨s1, s2, s3, s4⟩ := sliceLoop_len ctx st
  obtain ⟨t1, t2, t3, t4⟩ := topStep_len ctx (sliceLoop ctx st)
  refine ⟨st, hrun, ⟨l1, by omega, by omega, by omega⟩,
    ⟨s1, by omega, by omega, by omega⟩, ?_⟩
  intro hne
  have hdr : drawXYZGrid ctx f s = topStep ctx (sliceLoop ctx st) := by
    unfold drawXYZGrid
    rw [hrun]
    dsimp only
    rw [if_neg hne]
  rw [hdr]
  exact ⟨by omega, by omega, by omega, by omega⟩

theorem metadata_length_invariant_witness :
    ∃ st, runCells cexCtx1 "z" "y" = some st
      ∧ (st.images.length = cexCtx1.xs.length * cexCtx1.ys.length * cexCtx1.zs.length
         ∧ st.allPrompts.length = st.images.length
         ∧ st.allSeeds.length = st.images.length
         ∧ st.infotexts.length = st.images.length)
      ∧ ((sliceLoop cexCtx1 st).images.length = st.images.length + cexCtx1.zs.length
         ∧ (sliceLoop cexCtx1 st).allPrompts.length = (sliceLoop cexCtx1 st).images.length
         ∧ (sliceLoop cexCtx1 st).allSeeds.length = (sliceLoop cexCtx1 st).images.length
         ∧ (sliceLoop cexCtx1 st).infotexts.length = (sliceLoop cexCtx1 st).images.length)
      ∧ (¬ st.images.all (fun o => o.isNone) →
          (drawXYZGrid cexCtx1 "z" "y").images.length
            = cexCtx1.xs.length * cexCtx1.ys.length * cexCtx1.zs.length
                + cexCtx1.zs.length + 1
          ∧ (drawXYZGrid cexCtx1 "z" "y").infotexts.length
              = (drawXYZGrid cexCtx1 "z" "y").images.length
          ∧ (drawXYZGrid cexCtx1 "z" "y").allPrompts.length
              = cexCtx1.xs.length * cexCtx1.ys.length * cexCtx1.zs.length
                  + cexCtx1.zs.length
          ∧ (drawXYZGrid cexCtx1 "z" "y").allSeeds.length
              = (drawXYZGrid cexCtx1 "z" "y").allPrompts.length) :=
  metadata_length_invariant cexCtx1 "z" "y" (by decide) (by decide) (by decide)
    (by decide)

/-- C1 counterexample: on a 1x1x1 sweep the returned result has 3 images and
3 infotexts but only 2 prompts and 2 seeds, and 3 differs from 2 -- the
top-grid insertion at position 0 skips all_prompts and all_seeds. -/
theorem top_insert_skips_metadata_cex :
    (drawXYZGrid cexCtx1 "z" "y").images.length = 3
    ∧ (drawXYZGrid cexCtx1 "z" "y").infotexts.length = 3
    ∧ (drawXYZGrid cexCtx1 "z" "y").allPrompts.length = 2
    ∧ (drawXYZGrid cexCtx1 "z" "y").allSeeds.length = 2
    ∧ (3 : Nat) ≠ 2 :=
  ⟨rfl, rfl, rfl, rfl, by decide⟩

theorem chunkListF_nil {α : Type} (fuel n : Nat) :
    chunkListF (α := α) fuel [] n = [] := by
  cases fuel <;> rfl

theorem chunkListF_spec {α : Type} (n : Nat) (hn : 0 < n) :
    ∀ (fuel : Nat) (l : List α), l.length ≤ fuel →
    (chunkListF fuel l n).flatten = l
    ∧ (∀ c ∈ chunkListF fuel l n, c ≠ [] ∧ c.length ≤ n)
    ∧ (∀ c ∈ (chunkListF fuel l n).dropLast, c.length = n) := by
  intro fuel
  induction fuel with
  | zero =>
    intro l hl
    have : l = [] := List.length_eq_zero.mp (by omega)
    subst this
    simp [chunkListF]
  | succ m ih =>
    intro l hl
    cases l with
    | nil => simp [chunkListF]
    | cons a t =>
      have hstep : chunkListF (m + 1) (a :: t) n
          = (a :: t).take n :: chunkListF m ((a :: t).drop n) n := rfl
      have hdlen : ((a :: t).drop n).length ≤ m := by
        simp only [List.length_drop, List.length_cons] at *
        omega
      obtain ⟨ihf, ihm, ihd⟩ := ih ((a :: t).drop n) hdlen
      refine ⟨?_, ?_, ?_⟩
      · rw [hstep, List.flatten_cons, ihf, List.take_append_drop]
      · intro c hc
        rw [hstep, List.mem_cons] at hc
        rcases hc with rfl | hc
        · refine ⟨?_, ?_⟩
          · cases n with
            | zero => omega
            | succ k => simp [List.take_cons]
          · simp only [List.length_take]
            omega
        · exact ihm c hc
      · intro c hc
        rw [hstep] at hc
        by_cases hrest : chunkListF m ((a :: t).drop n) n = []
        · rw [hrest] at hc
          simp at hc
        · rw [List.dropLast_cons_of_ne_nil hrest, List.mem_cons] at hc
          rcases hc with rfl | hc
          · have hlen : n ≤ (a :: t).length := by
              by_contra hgt
              have hdnil : (a :: t).drop n = [] := by
                rw [List.drop_eq_nil_iff]
                omega
              rw [hdnil, chunkListF_nil] at hrest
              exact hrest rfl
            simp only [List.length_take]
            omega
          · exact ihd c hc

theorem chunkList_partition {α : Type} (l : List α) (n : Nat) (hn : 0 < n) :
    (chunkList l n).flatten = l
    ∧ (∀ c ∈ chunkList l n, c ≠ [] ∧ c.length ≤ n)
    ∧ (∀ c ∈ (chunkList l n).dropLast, c.length = n) := by
  unfold chunkList
  rw [if_neg (by omega)]
  exact chunkListF_spec n hn l.length l le_rfl

/-- C3 (amended): with chunked processing enabled, the dominant axis value
list is partitioned into consecutive chunks of the configured size: the
chunks concatenate back to the original list, every chunk is nonempty with
at most n values, and every chunk except possibly the last has exactly n
values.  But the chunked run does NOT return the concatenation of the
per-chunk pipeline outputs: each chunk output is first trimmed (main grid
kept, sub-grids dropped), and the `final_processed = chunk_processed`
aliasing at chunk 0 combined with the unconditional list-clearing cleanup
wipes chunk 0 from the result, so the returned lists concatenate only the
trimmed outputs of the chunks after the first — empty when there is exactly
one chunk — and never equal the unchunked pipeline output cell for cell. -/
theorem chunked_partitions_axis (cfg : RunCfg) (first second : String) (n : Nat)
    (includeLone : Bool) (axis : String) (values : List AxisVal)
    (ha : axis = mainAxisOf cfg.xs.length cfg.ys.length cfg.zs.length)
    (hvals : values
      = if axis = "x" then cfg.xs else if axis = "y" then cfg.ys else cfg.zs)
    (hn : 0 < n) :
    ((chunkList values n).flatten = values
     ∧ (∀ c ∈ chunkList values n, c ≠ [] ∧ c.length ≤ n)
     ∧ (∀ c ∈ (chunkList values n).dropLast, c.length = n))
    ∧ (scriptRunChunked cfg first second n includeLone).images
        = (((chunkList values n).drop 1).map (fun ch =>
            (chunkTrim (drawXYZGrid (chunkCfg cfg axis ch).toCtx first second)
              (chunkCfg cfg axis ch).zs.length includeLone).images)).flatten
    ∧ ((chunkList values n).length = 1 →
        (scriptRunChunked cfg first second n includeLone).images = []) := by
  refine ⟨chunkList_partition values n hn, ?_⟩
  subst ha hvals
  have hmain : (scriptRunChunked cfg first second n includeLone).images
      = (((chunkList
            (if mainAxisOf cfg.xs.length cfg.ys.length cfg.zs.length = "x" then cfg.xs
             else if mainAxisOf cfg.xs.length cfg.ys.length cfg.zs.length = "y" then
               cfg.ys
             else cfg.zs) n).drop 1).map (fun ch =>
          (chunkTrim
            (drawXYZGrid
              (chunkCfg cfg (mainAxisOf cfg.xs.length cfg.ys.length cfg.zs.length)
                ch).toCtx first second)
            (chunkCfg cfg (mainAxisOf cfg.xs.length cfg.ys.length cfg.zs.length)
              ch).zs.length includeLone).images)).flatten := by
    unfold scriptRunChunked
    cases hch : chunkList
        (if mainAxisOf cfg.xs.length cfg.ys.length cfg.zs.length = "x" then cfg.xs
         else if mainAxisOf cfg.xs.length cfg.ys.length cfg.zs.length = "y" then cfg.ys
         else cfg.zs) n with
    | nil => simp [hch]
    | cons c cs => simp [hch, List.map_map]; rfl
  refine ⟨hmain, ?_⟩
  intro hlen
  rw [hmain]
  have hd : (chunkList
      (if mainAxisOf cfg.xs.length cfg.ys.length cfg.zs.length = "x" then cfg.xs
       else if mainAxisOf cfg.xs.length cfg.ys.length cfg.zs.length = "y" then cfg.ys
       else cfg.zs) n).drop 1 = [] := by
    rw [List.drop_eq_nil_iff]
    omega
  rw [hd]
  rfl

theorem chunked_partitions_axis_witness :
    (chunkList cexCfg10.xs 4).map List.length = [4, 4, 2]
    ∧ (((chunkList cexCfg10.xs 4).flatten = cexCfg10.xs
        ∧ (∀ c ∈ chunkList cexCfg10.xs 4, c ≠ [] ∧ c.length ≤ 4)
        ∧ (∀ c ∈ (chunkList cexCfg10.xs 4).dropLast, c.length = 4))
       ∧ (scriptRunChunked cexCfg10 "z" "y" 4 true).images
           = (((chunkList cexCfg10.xs 4).drop 1).map (fun ch =>
               (chunkTrim (drawXYZGrid (chunkCfg cexCfg10 "x" ch).toCtx "z" "y")
                 (chunkCfg cexCfg10 "x" ch).zs.length true).images)).flatten
       ∧ ((chunkList cexCfg10.xs 4).length = 1 →
           (scriptRunChunked cexCfg10 "z" "y" 4 true).images = [])) :=
  ⟨rfl, chunked_partitions_axis cexCfg10 "z" "y" 4 true "x" cexCfg10.xs rfl rfl
    (by decide)⟩

/-- C3 counterexample: on a 2x1x1 sweep with chunk size 1 and individual
images included, the chunked run returns 2 images (chunk 0 is wiped by the
aliasing cleanup, chunk 1 keeps its trimmed main grid plus cell image) while
the unchunked grid branch returns 3, and 2 differs from 3; with chunk size 4
the two values form a single chunk and the chunked run returns no images at
all. -/
theorem chunked_differs_from_unchunked_cex :
    (scriptRunChunked cexCfg3 "z" "y" 1 true).images.length = 2
    ∧ (scriptRunGrid cexCfg3 "z" "y" true false cexGridInfos).images.length = 3
    ∧ (2 : Nat) ≠ 3
    ∧ (scriptRunChunked cexCfg3 "z" "y" 4 true).images = [] :=
  ⟨rfl, rfl, by decide, rfl⟩
